import Mathlib

/-!
Shallow embedding of `src/slideshow.js` (class `Slideshow`).

Each slideshow item carries CSS-class-like boolean flags for the five
configured class names: `prev`, `sel`, `next` (the role tags), `trans`
(the transitioning tag) and `notrans` (the no-transition tag).
`classList.add` sets a flag, `classList.remove` clears it.
Indicators carry one flag (the selected-indicator class).

The two optional class identifiers (`transitioningClass`,
`notransitionClass`) are modelled by the configuration booleans
`hasTransitioningClass` / `hasNotransitionClass` (`false` = the class is
`null` in the source).  Array accesses `items[i]` yield `Option Item`
(`none` = JavaScript `undefined`); dereferencing `none` is a thrown
`TypeError`, modelled by `Except.error`.

Timer handles are modelled by booleans: `timeoutVarSet` is
`this.transitioningTimeout != null` (the variable is assigned once and
never reset to null in the source), `debounceTimerPending` means the
debounce safety timer is armed and will fire unless cleared.  Armed
timers and diagnostics are additionally recorded in an effect log.
-/

namespace Slideshow

/-- One slideshow item: the five class flags of the source. -/
structure Item where
  prev : Bool
  sel : Bool
  next : Bool
  trans : Bool
  notrans : Bool
  deriving Repr, DecidableEq

/-- Immutable configuration (constructor arguments of `Slideshow`). -/
structure Config where
  loop : Bool
  shouldDebounce : Bool
  shouldAutoTransition : Bool
  hasTransitioningClass : Bool
  hasNotransitionClass : Bool
  deriving Repr, DecidableEq

/-- Mutable slideshow state.  `indicators = none` models a `null`
indicator array; an indicator is its selected-class flag. -/
structure SlideState where
  cfg : Config
  items : List Item
  indicators : Option (List Bool)
  transitioning : Bool
  timeoutVarSet : Bool
  debounceTimerPending : Bool
  autoIntervalPending : Bool
  autoResumePending : Bool
  deriving Repr, DecidableEq

/-- Observable effects of an operation: timers armed/cancelled,
items tagged transitioning, role changes, diagnostics. -/
inductive Eff where
  | armDebounceTimer (ms : Nat)
  | cancelDebounceTimer
  | armBackupTimer (i : Int) (ms : Nat)
  | armLoopBackupTimer (ms : Nat)
  | stopAutoEff
  | startAutoEff
  | markTrans (i : Int)
  | toPrev (i : Int)
  | toNext (i : Int)
  | toSelected (i : Int)
  | diag (msg : String)
  deriving Repr, DecidableEq

/-- `l[i]` for a JavaScript array: `undefined` (`none`) out of range. -/
def getItem? (l : List Item) (i : Int) : Option Item :=
  if i < 0 then none else l[i.toNat]?

/-- Replace the element at position `n` by `f` of it (no-op out of range). -/
def updAt (l : List Item) (n : Nat) (f : Item → Item) : List Item :=
  match l, n with
  | [], _ => []
  | x :: xs, 0 => f x :: xs
  | x :: xs, n + 1 => x :: updAt xs n f

/-- `updAt` at a JavaScript (possibly negative) index. -/
def updAtI (l : List Item) (i : Int) (f : Item → Item) : List Item :=
  if i < 0 then l else updAt l i.toNat f

/-- `getSelectedIndex` (source lines 99-106): index of the first item
bearing the selected class, `-1` if none. -/
def getSelectedIndex : List Item → Int
  | [] => -1
  | x :: xs =>
    if x.sel then 0
    else
      let r := getSelectedIndex xs
      if r < 0 then -1 else r + 1

/-- Number of items bearing the selected role. -/
def countSel (l : List Item) : Nat := l.countP (fun it => it.sel)

/-! ### Transition Tracker (`markTransitioning`, source lines 539-595)

State machine for one tracked item: the transitioning tag on the item,
whether the one-shot `transitionend` listener is still attached, whether
the `backupTimeout` variable is non-null, whether the backup timer is
still pending (armed, not fired, not cleared), and how many times the
completion continuation has been invoked. -/

/-- Tracker state for one `markTransitioning` call. -/
structure Tracker where
  itemTrans : Bool
  attached : Bool
  backupVarSet : Bool
  backupPending : Bool
  fired : Nat
  deriving Repr, DecidableEq

/-- State right after `markTransitioning` runs with a configured
transitioning class: tag added, listener attached, backup timer armed. -/
def mkTracker : Tracker :=
  { itemTrans := true, attached := true, backupVarSet := true
    backupPending := true, fired := 0 }

/-- The delay of every safety/backup timer in the source (ms). -/
def backupDelayMs : Nat := 3000

/-- Events a tracker can receive: the external `transitionend` signal,
or its backup timer firing. -/
inductive TkEv where
  | signal
  | timeout
  deriving Repr, DecidableEq

/-- One tracker step, mirroring the listener body (source lines 550-575)
and the backup-timeout body (source lines 578-591).  A `timeout` is a
no-op unless the backup timer is still pending (a cleared timer never
fires); a `signal` is a no-op once the listener is detached. -/
def tkStep (t : Tracker) : TkEv → Tracker
  | .signal =>
    if t.attached then
      let t1 := { t with itemTrans := false, attached := false }
      if t1.backupVarSet = false then t1
      else { t1 with backupPending := false, fired := t1.fired + 1 }
    else t
  | .timeout =>
    if t.backupPending then
      { t with backupVarSet := false, backupPending := false, fired := t.fired + 1 }
    else t

/-- Run a tracker over a sequence of events. -/
def tkRun (t : Tracker) : List TkEv → Tracker
  | [] => t
  | e :: es => tkRun (tkStep t e) es

/-! ### Slideshow operations -/

/-- Result of `debounce` (source lines 140-157): whether the caller must
return (`blocked`), the new state, and the timer effects. -/
structure DebounceRes where
  blocked : Bool
  state : SlideState
  effs : List Eff
  deriving Repr, DecidableEq

/-- `debounce` (source lines 140-157). -/
def debounce (st : SlideState) : DebounceRes :=
  if st.cfg.shouldDebounce then
    if st.transitioning then ⟨true, st, []⟩
    else
      ⟨false,
        { st with transitioning := true, timeoutVarSet := true
                  debounceTimerPending := true },
        (if st.timeoutVarSet then [Eff.cancelDebounceTimer] else []) ++
          [Eff.armDebounceTimer backupDelayMs]⟩
  else ⟨false, st, []⟩

/-- Body of the debounce safety timer (source lines 152-154): force-clears
the transitioning flag. -/
def debounceTimeoutBody (st : SlideState) : SlideState :=
  { st with transitioning := false, debounceTimerPending := false }

/-- `endDebounce` (source lines 162-169). -/
def endDebounce (st : SlideState) : SlideState × List Eff :=
  if st.cfg.shouldDebounce then
    ({ st with transitioning := false, debounceTimerPending := false },
      if st.timeoutVarSet then [Eff.cancelDebounceTimer] else [])
  else (st, [])

/-- `resetAllTransitioning` (source lines 600-612): removes the
transitioning tag from every item; no-op when the class is unset. -/
def resetAllTransitioning (st : SlideState) : SlideState :=
  if st.cfg.hasTransitioningClass then
    { st with items := st.items.map (fun it => { it with trans := false }) }
  else st

/-- `stopAutoTransition` (source lines 451-466): cancels the tick
interval and arms the resume timer. -/
def stopAutoTransition (st : SlideState) : SlideState × List Eff :=
  ({ st with autoIntervalPending := false, autoResumePending := true },
    [Eff.stopAutoEff])

/-- The loop of `updateIndicators` (source lines 84-92): sets the
selected flag exactly on index `idx`. -/
def updateIndicatorsList (idx : Int) : Nat → List Bool → List Bool
  | _, [] => []
  | i, b :: bs =>
    (if (i : Int) = idx then true else if b then false else b) ::
      updateIndicatorsList idx (i + 1) bs

/-- `updateIndicators` lifted to the state (source lines 84-92): throws
if the indicator array is `null`. -/
def updateIndicators (st : SlideState) (idx : Int) : Except String SlideState :=
  match st.indicators with
  | none => .error "TypeError: cannot read length of null"
  | some l => .ok { st with indicators := some (updateIndicatorsList idx 0 l) }

/-- Per-item body of `reclauclatePositions` (source lines 491-530). -/
def recalcItem (cfg : Config) (selIdx : Int) (flip : Bool) (i : Int)
    (it : Item) : Item :=
  if i = selIdx then it
  else
    let it1 := if cfg.hasNotransitionClass then { it with notrans := true } else it
    let it2 :=
      if flip then
        if i > selIdx then { it1 with next := false, prev := true }
        else { it1 with prev := false, next := true }
      else
        if i < selIdx then { it1 with next := false, prev := true }
        else { it1 with prev := false, next := true }
    if cfg.hasNotransitionClass then { it2 with notrans := false } else it2

/-- The loop of `reclauclatePositions` over the item list. -/
def recalcList (cfg : Config) (selIdx : Int) (flip : Bool) :
    Nat → List Item → List Item
  | _, [] => []
  | i, x :: xs =>
    recalcItem cfg selIdx flip i x :: recalcList cfg selIdx flip (i + 1) xs

/-- `reclauclatePositions` (source lines 491-530). -/
def reclauclatePositions (st : SlideState) (selIdx : Int) (flip : Bool) :
    SlideState :=
  { st with items := recalcList st.cfg selIdx flip 0 st.items }

/-- Synchronous part of `markTransitioning` (source lines 539-595): no-op
when the transitioning class is unset; otherwise throws on an undefined
item, else adds the tag, attaches the listener and arms the backup timer. -/
def markTransitioningS (st : SlideState) (i : Int) :
    Except String (SlideState × List Eff) :=
  if st.cfg.hasTransitioningClass = false then .ok (st, [])
  else
    match getItem? st.items i with
    | none => .error "TypeError: cannot addEventListener on undefined"
    | some _ =>
      .ok ({ st with items := updAtI st.items i (fun it => { it with trans := true }) },
        [Eff.markTrans i, Eff.armBackupTimer i backupDelayMs])

/-- Role mutation on `items[i]` via `classList` (throws on undefined). -/
def itemRole (st : SlideState) (i : Int) (f : Item → Item) :
    Except String SlideState :=
  match getItem? st.items i with
  | none => .error "TypeError: cannot read classList of undefined"
  | some _ => .ok { st with items := updAtI st.items i f }

/-- Completion of a tracker on `items[i]` via the `transitionend` signal:
removes the transitioning tag (source line 552). -/
def clearTrans (st : SlideState) (i : Int) : SlideState :=
  { st with items := updAtI st.items i (fun it => { it with trans := false }) }

/-- Debounce-clearing step of a tracker completion with
`endDebounce = true` (source lines 564-569 and 582-585). -/
def trackerEndDeb (st : SlideState) : SlideState :=
  if st.timeoutVarSet && st.cfg.shouldDebounce then
    { st with transitioning := false, debounceTimerPending := false }
  else st

/-- The four tracker states reachable from `mkTracker`. -/
def tkReach (t : Tracker) : Prop :=
  t = mkTracker ∨
  t = { itemTrans := false, attached := false, backupVarSet := true
        backupPending := false, fired := 1 } ∨
  t = { itemTrans := true, attached := true, backupVarSet := false
        backupPending := false, fired := 1 } ∨
  t = { itemTrans := false, attached := false, backupVarSet := false
        backupPending := false, fired := 1 }

instance (t : Tracker) : Decidable (tkReach t) := by
  unfold tkReach; infer_instance

/-! ### Transition operations -/

/-- Pending asynchronous work left by a forward/backward call: whether the
move wrapped (`looping`), the outgoing index and the incoming index. -/
structure MovePend where
  looping : Bool
  selIdx : Int
  newIdx : Int
  deriving Repr, DecidableEq

/-- Tail of `transitionForward` from `updateIndicators` on (source lines
209-245): indicators, wrap pre-reflow, the two trackers (plus, when
looping, the secondary loop-repair backup timer), and the two role flips. -/
def forwardCore (st : SlideState) (effs : List Eff) (selIdx nextIdx : Int)
    (looping : Bool) : Except String (SlideState × List Eff × Option MovePend) :=
  match updateIndicators st nextIdx with
  | .error e => .error e
  | .ok stA =>
    let stB := if looping then reclauclatePositions stA selIdx true else stA
    match markTransitioningS stB selIdx with
    | .error e => .error e
    | .ok (stC, e1) =>
      let eLoop := if looping then [Eff.armLoopBackupTimer backupDelayMs] else []
      match markTransitioningS stC nextIdx with
      | .error e => .error e
      | .ok (stD, e2) =>
        match itemRole stD selIdx (fun it => { it with sel := false, prev := true }) with
        | .error e => .error e
        | .ok stE =>
          match itemRole stE nextIdx (fun it => { it with next := false, sel := true }) with
          | .error e => .error e
          | .ok stF =>
            .ok (stF,
              effs ++ e1 ++ eLoop ++ e2 ++ [Eff.toPrev selIdx, Eff.toSelected nextIdx],
              some ⟨looping, selIdx, nextIdx⟩)

/-- Synchronous part of `transitionForward` (source lines 175-246). -/
def transitionForwardSync (auto : Bool) (st0 : SlideState) :
    Except String (SlideState × List Eff × Option MovePend) :=
  let d := debounce st0
  if d.blocked then .ok (d.state, d.effs, none)
  else
    let st1 := resetAllTransitioning d.state
    let sa := if auto = false ∧ st1.cfg.shouldAutoTransition then
        stopAutoTransition st1 else (st1, [])
    let st2 := sa.1
    let selIdx := getSelectedIndex st2.items
    if selIdx + 1 = (st2.items.length : Int) then
      if st2.cfg.loop = false then
        let ed := endDebounce st2
        .ok (ed.1, d.effs ++ sa.2 ++ ed.2, none)
      else
        forwardCore st2 (d.effs ++ sa.2) selIdx 0 true
    else
      forwardCore st2 (d.effs ++ sa.2) selIdx (selIdx + 1) false

/-- Resolution of everything `transitionForward` leaves pending.  With a
transitioning class: the outgoing tracker completes (removing its tag and,
on a wrap, running the loop repair and cancelling the secondary backup
timer), then the incoming tracker completes (removing its tag and clearing
the debounce).  Without one: no tracker exists, but on a wrap the secondary
backup timer still fires the repair (source lines 229-234), and the
debounce safety timer, if armed, force-clears the flag. -/
def completeForward (st : SlideState) (p : MovePend) : SlideState :=
  if st.cfg.hasTransitioningClass then
    let st1 := clearTrans st p.selIdx
    let st2 := if p.looping then reclauclatePositions st1 p.newIdx false else st1
    let st3 := clearTrans st2 p.newIdx
    trackerEndDeb st3
  else
    let st1 := if p.looping then reclauclatePositions st p.newIdx false else st
    if st1.debounceTimerPending then debounceTimeoutBody st1 else st1

/-- `transitionForward` run to completion: the synchronous call followed
by the resolution of all pending trackers and timers. -/
def transitionForwardC (auto : Bool) (st : SlideState) :
    Except String (SlideState × List Eff) :=
  match transitionForwardSync auto st with
  | .error e => .error e
  | .ok (st1, effs, none) => .ok (st1, effs)
  | .ok (st1, effs, some p) => .ok (completeForward st1 p, effs)

/-- Tail of `transitionBackward` from `updateIndicators` on (source lines
286-312).  Mirror of `forwardCore`; note there is no secondary loop-repair
backup timer on the backward path. -/
def backwardCore (st : SlideState) (effs : List Eff) (selIdx prevIdx : Int)
    (looping : Bool) : Except String (SlideState × List Eff × Option MovePend) :=
  match updateIndicators st prevIdx with
  | .error e => .error e
  | .ok stA =>
    let stB := if looping then reclauclatePositions stA selIdx true else stA
    match markTransitioningS stB selIdx with
    | .error e => .error e
    | .ok (stC, e1) =>
      match markTransitioningS stC prevIdx with
      | .error e => .error e
      | .ok (stD, e2) =>
        match itemRole stD selIdx (fun it => { it with sel := false, next := true }) with
        | .error e => .error e
        | .ok stE =>
          match itemRole stE prevIdx (fun it => { it with prev := false, sel := true }) with
          | .error e => .error e
          | .ok stF =>
            .ok (stF,
              effs ++ e1 ++ e2 ++ [Eff.toNext selIdx, Eff.toSelected prevIdx],
              some ⟨looping, selIdx, prevIdx⟩)

/-- Synchronous part of `transitionBackward` (source lines 252-313). -/
def transitionBackwardSync (auto : Bool) (st0 : SlideState) :
    Except String (SlideState × List Eff × Option MovePend) :=
  let d := debounce st0
  if d.blocked then .ok (d.state, d.effs, none)
  else
    let st1 := resetAllTransitioning d.state
    let sa := if auto = false ∧ st1.cfg.shouldAutoTransition then
        stopAutoTransition st1 else (st1, [])
    let st2 := sa.1
    let selIdx := getSelectedIndex st2.items
    if selIdx - 1 < 0 then
      if st2.cfg.loop = false then
        let ed := endDebounce st2
        .ok (ed.1, d.effs ++ sa.2 ++ ed.2, none)
      else
        backwardCore st2 (d.effs ++ sa.2) selIdx ((st2.items.length : Int) - 1) true
    else
      backwardCore st2 (d.effs ++ sa.2) selIdx (selIdx - 1) false

/-- Resolution of everything `transitionBackward` leaves pending.  Unlike
the forward path there is no secondary backup timer: without a
transitioning class the wrap repair never runs. -/
def completeBackward (st : SlideState) (p : MovePend) : SlideState :=
  if st.cfg.hasTransitioningClass then
    let st1 := clearTrans st p.selIdx
    let st2 := if p.looping then reclauclatePositions st1 p.newIdx false else st1
    let st3 := clearTrans st2 p.newIdx
    trackerEndDeb st3
  else
    if st.debounceTimerPending then debounceTimeoutBody st else st

/-- `transitionBackward` run to completion. -/
def transitionBackwardC (auto : Bool) (st : SlideState) :
    Except String (SlideState × List Eff) :=
  match transitionBackwardSync auto st with
  | .error e => .error e
  | .ok (st1, effs, none) => .ok (st1, effs)
  | .ok (st1, effs, some p) => .ok (completeBackward st1 p, effs)

/-- Pending asynchronous work left by `transitionTo`: the direction
(`prevDir` when `selectedIndex < targetIndex`), the outgoing index and the
target index. -/
structure ToPend where
  prevDir : Bool
  selIdx : Int
  target : Int
  deriving Repr, DecidableEq

/-- Synchronous part of `transitionTo` (source lines 319-394). -/
def transitionToSync (target : Int) (st0 : SlideState) :
    Except String (SlideState × List Eff × Option ToPend) :=
  let selIdx := getSelectedIndex st0.items
  if selIdx = target then .ok (st0, [], none)
  else
    let d := debounce st0
    if d.blocked then .ok (d.state, d.effs, none)
    else
      let st1 := resetAllTransitioning d.state
      let sa := if st1.cfg.shouldAutoTransition then stopAutoTransition st1
        else (st1, [])
      let st2 := sa.1
      match updateIndicators st2 target with
      | .error e => .error e
      | .ok stA =>
        if selIdx < target then
          match markTransitioningS stA selIdx with
          | .error e => .error e
          | .ok (stB, e1) =>
            match itemRole stB selIdx (fun it => { it with sel := false, prev := true }) with
            | .error e => .error e
            | .ok stC =>
              .ok (stC, d.effs ++ sa.2 ++ e1 ++ [Eff.toPrev selIdx],
                some ⟨true, selIdx, target⟩)
        else
          match markTransitioningS stA selIdx with
          | .error e => .error e
          | .ok (stB, e1) =>
            match itemRole stB selIdx (fun it => { it with sel := false, next := true }) with
            | .error e => .error e
            | .ok stC =>
              .ok (stC, d.effs ++ sa.2 ++ e1 ++ [Eff.toNext selIdx],
                some ⟨false, selIdx, target⟩)

/-- Final continuation of `transitionTo`'s chain (source lines 357-366 and
378-387): tracks the target, flips it to selected, and on that tracker's
completion removes its tag and clears the debounce. -/
def chainFinal (st : SlideState) (prevDir : Bool) (target : Int)
    (effs : List Eff) : Except String (SlideState × List Eff) :=
  match markTransitioningS st target with
  | .error e => .error e
  | .ok (st1, e1) =>
    let f := if prevDir then (fun it => { it with next := false, sel := true })
      else (fun it => { it with prev := false, sel := true })
    match itemRole st1 target f with
    | .error e => .error e
    | .ok st2 =>
      .ok (trackerEndDeb (clearTrans st2 target), effs ++ e1 ++ [Eff.toSelected target])

/-- `transitionToPrevLoop` (source lines 396-416) run to completion: each
step tracks `items[selectedIndex + i]`, flips it to previous, waits for
that tracker's completion, then recurses with `i + 1`; the loop guard
`i >= distance` is carried as the remaining step count `rem = distance - i`
(zero exactly when the guard fires), so the recursion is structural. -/
def chainPrev (selIdx target : Int) : Nat → Nat → SlideState → List Eff →
    Except String (SlideState × List Eff)
  | 0, _, st, effs => chainFinal st true target effs
  | rem + 1, i, st, effs =>
    let cur : Int := selIdx + i
    match markTransitioningS st cur with
    | .error e => .error e
    | .ok (st1, e1) =>
      match itemRole st1 cur (fun it => { it with next := false, prev := true }) with
      | .error e => .error e
      | .ok st2 =>
        chainPrev selIdx target rem (i + 1) (clearTrans st2 cur)
          (effs ++ e1 ++ [Eff.toPrev cur])

/-- `transitionToNextLoop` (source lines 418-438) run to completion, with
the loop guard carried as the remaining step count as in `chainPrev`. -/
def chainNext (selIdx target : Int) : Nat → Nat → SlideState → List Eff →
    Except String (SlideState × List Eff)
  | 0, _, st, effs => chainFinal st false target effs
  | rem + 1, i, st, effs =>
    let cur : Int := selIdx - i
    match markTransitioningS st cur with
    | .error e => .error e
    | .ok (st1, e1) =>
      match itemRole st1 cur (fun it => { it with prev := false, next := true }) with
      | .error e => .error e
      | .ok st2 =>
        chainNext selIdx target rem (i + 1) (clearTrans st2 cur)
          (effs ++ e1 ++ [Eff.toNext cur])

/-- Resolution of everything `transitionTo` leaves pending.  The chain is
driven by the outgoing tracker's continuation, so without a transitioning
class it never runs (only the debounce safety timer can still fire).  The
chain starts at `i = 1`, so its remaining step count is `distance - 1`. -/
def completeTo (st : SlideState) (p : ToPend) : Except String (SlideState × List Eff) :=
  if st.cfg.hasTransitioningClass then
    let st1 := clearTrans st p.selIdx
    if p.prevDir then
      chainPrev p.selIdx p.target ((p.target - p.selIdx).toNat - 1) 1 st1 []
    else
      chainNext p.selIdx p.target ((p.selIdx - p.target).toNat - 1) 1 st1 []
  else
    .ok (if st.debounceTimerPending then debounceTimeoutBody st else st, [])

/-- `transitionTo` run to completion. -/
def transitionToC (target : Int) (st : SlideState) :
    Except String (SlideState × List Eff) :=
  match transitionToSync target st with
  | .error e => .error e
  | .ok (st1, effs, none) => .ok (st1, effs)
  | .ok (st1, effs, some p) =>
    match completeTo st1 p with
    | .error e => .error e
    | .ok (st2, effs2) => .ok (st2, effs ++ effs2)

/-- The `Slideshow` constructor (source lines 20-67): stores the
configuration, validates the indicator count (a diagnostic, not a failure,
on mismatch), and always starts the auto-advance interval. -/
def mkSlideshow (cfg : Config) (items : List Item)
    (indicators : Option (List Bool)) : SlideState × List Eff :=
  let st : SlideState :=
    { cfg := cfg, items := items, indicators := indicators
      transitioning := false, timeoutVarSet := false
      debounceTimerPending := false
      autoIntervalPending := true, autoResumePending := false }
  let de : List Eff :=
    match indicators with
    | none => []
    | some l =>
      if items.length ≠ l.length then
        [Eff.diag "Invalid number of indicators! Number of indicators must match number of items."]
      else []
  (st, de ++ [Eff.startAutoEff])

/-- The canonical settled item at position `i` when `idx` is selected. -/
def canonItem (idx i : Nat) : Item :=
  { prev := decide (i < idx), sel := decide (i = idx), next := decide (idx < i)
    trans := false, notrans := false }

/-- The canonical settled item list of length `n` selected at `idx`. -/
def canonItems (n idx : Nat) : List Item := (List.range n).map (canonItem idx)

/-- Projection of a completed operation's result to its final state. -/
def stOf : Except String (SlideState × List Eff) → Option SlideState
  | .ok (s, _) => some s
  | .error _ => none

/-- Projection of a completed operation's result to its effect log. -/
def logOf : Except String (SlideState × List Eff) → Option (List Eff)
  | .ok (_, l) => some l
  | .error _ => none

/-- Whether an operation returned without a thrown error. -/
def isOk : Except String (SlideState × List Eff × Option MovePend) → Bool
  | .ok _ => true
  | .error _ => false

/-- Whether a `transitionTo` call returned without a thrown error. -/
def isOkTo : Except String (SlideState × List Eff × Option ToPend) → Bool
  | .ok _ => true
  | .error _ => false

/-- A settled state: not debouncing and no item bears the transitioning tag. -/
def settled (st : SlideState) : Bool :=
  !st.transitioning && st.items.all (fun it => !it.trans)

/-- Synchronous-part projection: the state after the synchronous body of
`transitionForward`, with its pending-work descriptor. -/
def fwdSyncStOf (a : Bool) (st : SlideState) :
    Option (SlideState × Option MovePend) :=
  match transitionForwardSync a st with
  | .ok (s, _, p) => some (s, p)
  | .error _ => none

/-- One completed public operation that returned without a thrown error:
a forward, backward, or jump call together with the resolution of all the
trackers and timers it left pending. -/
inductive Step : SlideState → SlideState → Prop where
  | fwd (a : Bool) (st st' : SlideState) (log : List Eff) :
      transitionForwardC a st = .ok (st', log) → Step st st'
  | bwd (a : Bool) (st st' : SlideState) (log : List Eff) :
      transitionBackwardC a st = .ok (st', log) → Step st st'
  | jump (t : Int) (st st' : SlideState) (log : List Eff) :
      transitionToC t st = .ok (st', log) → Step st st'

/-- Reachability by sequences of completed operations. -/
def Reach : SlideState → SlideState → Prop := Relation.ReflTransGen Step

/-! ### Concrete scenario states used by the claims -/

/-- 4-item looping carousel with debounce and both optional classes,
settled at index 3 (the C5 scenario). -/
def c5St : SlideState :=
  (mkSlideshow ⟨true, true, false, true, true⟩ (canonItems 4 3)
    (some [false, false, false, true])).1

/-- 6-item non-looping carousel with debounce and both optional classes,
settled at index 1 (the C6 scenario). -/
def c6St : SlideState :=
  (mkSlideshow ⟨false, true, false, true, true⟩ (canonItems 6 1)
    (some [false, true, false, false, false, false])).1

/-- 2-item carousel with the transitioning class unset, settled at 0. -/
def noClassSt : SlideState :=
  (mkSlideshow ⟨false, false, false, false, false⟩ (canonItems 2 0)
    (some [true, false])).1

/-- 3-item carousel with the transitioning class configured, settled at 0. -/
def c2WitSt : SlideState :=
  (mkSlideshow ⟨true, true, false, true, true⟩ (canonItems 3 0)
    (some [true, false, false])).1

/-- The settled state after one completed forward move from `c2WitSt`. -/
def c2WitNext : SlideState := (stOf (transitionForwardC true c2WitSt)).getD c2WitSt

/-- The effect log of that completed forward move. -/
def c2WitLog : List Eff := (logOf (transitionForwardC true c2WitSt)).getD []

/-- 2-item carousel constructed with a `null` indicator array. -/
def nullIndSt : SlideState :=
  (mkSlideshow ⟨false, false, false, true, true⟩ (canonItems 2 0) none).1

/-- 2-item carousel whose markup has no item bearing the selected class. -/
def noSelSt : SlideState :=
  (mkSlideshow ⟨false, false, false, true, true⟩
    [⟨true, false, false, false, false⟩, ⟨false, false, true, false, false⟩]
    (some [false, false])).1

/-- 3-item non-looping carousel settled at its last index. -/
def c4WitSt : SlideState :=
  (mkSlideshow ⟨false, true, false, true, true⟩ (canonItems 3 2)
    (some [false, false, true])).1

/-- 3-item carousel with debounce enabled that is currently mid-transition
(the debounce flag is held). -/
def c3St : SlideState :=
  { cfg := ⟨false, true, false, true, true⟩, items := canonItems 3 1
    indicators := some [false, true, false], transitioning := true
    timeoutVarSet := true, debounceTimerPending := true
    autoIntervalPending := true, autoResumePending := false }

end Slideshow

namespace Slideshow

/-! ### List helper lemmas -/

lemma length_updAt (f : Item → Item) :
    ∀ (l : List Item) (n : Nat), (updAt l n f).length = l.length := by
  intro l
  induction l with
  | nil => intro n; rfl
  | cons x xs ih =>
    intro n
    cases n with
    | zero => rfl
    | succ m => simp [updAt, ih]

lemma length_updAtI (l : List Item) (i : Int) (f : Item → Item) :
    (updAtI l i f).length = l.length := by
  unfold updAtI
  split
  · rfl
  · exact length_updAt f l i.toNat

lemma getElem?_updAt (f : Item → Item) :
    ∀ (l : List Item) (n k : Nat),
      (updAt l n f)[k]? = if k = n then (l[k]?).map f else l[k]? := by
  intro l
  induction l with
  | nil => intro n k; simp [updAt]
  | cons x xs ih =>
    intro n k
    cases n with
    | zero =>
      cases k with
      | zero => simp [updAt]
      | succ j => simp [updAt]
    | succ m =>
      cases k with
      | zero => simp [updAt]
      | succ j =>
        simp only [updAt, List.getElem?_cons_succ]
        rw [ih m j]
        by_cases h : j = m <;> simp [h]

lemma getElem?_updAtI (l : List Item) (i : Int) (f : Item → Item) (k : Nat)
    (hi : 0 ≤ i) :
    (updAtI l i f)[k]? = if (k : Int) = i then (l[k]?).map f else l[k]? := by
  unfold updAtI
  rw [if_neg (by omega)]
  rw [getElem?_updAt]
  by_cases h : k = i.toNat
  · rw [if_pos h, if_pos (by omega)]
  · rw [if_neg h, if_neg (by omega)]

lemma countP_cons_item (p : Item → Bool) (x : Item) (l : List Item) :
    (x :: l).countP p = l.countP p + (if p x then 1 else 0) := by
  by_cases h : p x <;> simp [List.countP_cons, h]

lemma countP_updAt (p : Item → Bool) (f : Item → Item) :
    ∀ (l : List Item) (n : Nat) (x : Item), l[n]? = some x →
      (updAt l n f).countP p + (if p x then 1 else 0) =
        l.countP p + (if p (f x) then 1 else 0) := by
  intro l
  induction l with
  | nil => intro n x h; simp at h
  | cons y ys ih =>
    intro n x h
    cases n with
    | zero =>
      simp only [List.getElem?_cons_zero, Option.some_inj] at h
      subst h
      simp only [updAt, countP_cons_item]
      omega
    | succ m =>
      simp only [List.getElem?_cons_succ] at h
      simp only [updAt, countP_cons_item]
      have := ih m x h
      omega

lemma countP_updAt_pres (p : Item → Bool) (f : Item → Item)
    (hf : ∀ x, p (f x) = p x) :
    ∀ (l : List Item) (n : Nat), (updAt l n f).countP p = l.countP p := by
  intro l
  induction l with
  | nil => intro n; rfl
  | cons y ys ih =>
    intro n
    cases n with
    | zero => simp [updAt, countP_cons_item, hf]
    | succ m => simp [updAt, countP_cons_item, ih]

lemma countSel_updAtI_pres (l : List Item) (i : Int) (f : Item → Item)
    (hf : ∀ x, (f x).sel = x.sel) : countSel (updAtI l i f) = countSel l := by
  unfold updAtI countSel
  split
  · rfl
  · exact countP_updAt_pres _ f hf l i.toNat

lemma countSel_map (f : Item → Item) (hf : ∀ x, (f x).sel = x.sel)
    (l : List Item) : countSel (l.map f) = countSel l := by
  induction l with
  | nil => rfl
  | cons x xs ih => simp [countSel, countP_cons_item, hf] at ih ⊢; omega

lemma recalcItem_sel (cfg : Config) (s : Int) (flip : Bool) (i : Int)
    (it : Item) : (recalcItem cfg s flip i it).sel = it.sel := by
  unfold recalcItem
  split
  · rfl
  · split_ifs <;> rfl

lemma countSel_recalcList (cfg : Config) (s : Int) (flip : Bool) :
    ∀ (i : Nat) (l : List Item), countSel (recalcList cfg s flip i l) = countSel l := by
  intro i l
  induction l generalizing i with
  | nil => rfl
  | cons x xs ih =>
    simp [recalcList, countSel, countP_cons_item, recalcItem_sel, ih]
    have := ih (i + 1)
    simp [countSel] at this
    omega

lemma length_recalcList (cfg : Config) (s : Int) (flip : Bool) :
    ∀ (i : Nat) (l : List Item), (recalcList cfg s flip i l).length = l.length := by
  intro i l
  induction l generalizing i with
  | nil => rfl
  | cons x xs ih => simp [recalcList, ih]

lemma countSel_eq_zero_sel {l : List Item} (h : countSel l = 0) {n : Nat}
    {x : Item} (hx : l[n]? = some x) : x.sel = false := by
  unfold countSel at h
  rw [List.countP_eq_zero] at h
  have hmem : x ∈ l := by
    have := List.getElem?_eq_some.mp hx
    obtain ⟨hlt, he⟩ := this
    exact he ▸ List.getElem_mem hlt
  simpa using h x hmem

/-! ### `getSelectedIndex` lemmas -/

lemma gsi_cons (x : Item) (xs : List Item) :
    getSelectedIndex (x :: xs) =
      if x.sel then 0
      else if getSelectedIndex xs < 0 then -1 else getSelectedIndex xs + 1 := rfl

lemma gsi_neg_iff (l : List Item) :
    getSelectedIndex l < 0 ↔ countSel l = 0 := by
  induction l with
  | nil => simp [getSelectedIndex, countSel]
  | cons x xs ih =>
    rw [gsi_cons]
    by_cases hx : x.sel
    · rw [if_pos hx]
      constructor
      · intro h; omega
      · intro h
        exfalso
        simp [countSel, countP_cons_item, hx] at h
    · rw [if_neg hx]
      by_cases hr : getSelectedIndex xs < 0
      · rw [if_pos hr]
        constructor
        · intro _
          have h2 := ih.mp hr
          simp only [countSel] at h2
          simp [countSel, countP_cons_item, hx, h2]
        · intro _; omega
      · rw [if_neg hr]
        have h1 : ¬ countSel xs = 0 := fun hc => hr (ih.mpr hc)
        constructor
        · intro h; omega
        · intro h
          exfalso
          apply h1
          simp [countSel, countP_cons_item, hx] at h
          simpa [countSel] using h

lemma gsi_spec : ∀ (l : List Item), 0 ≤ getSelectedIndex l →
    ∃ x, l[(getSelectedIndex l).toNat]? = some x ∧ x.sel = true := by
  intro l
  induction l with
  | nil => intro h; simp [getSelectedIndex] at h
  | cons y ys ih =>
    intro h
    rw [gsi_cons] at h ⊢
    by_cases hy : y.sel
    · rw [if_pos hy]
      exact ⟨y, by simp, hy⟩
    · rw [if_neg hy] at h ⊢
      by_cases hr : getSelectedIndex ys < 0
      · rw [if_pos hr] at h
        exfalso; omega
      · rw [if_neg hr] at h ⊢
        obtain ⟨x, hx, hs⟩ := ih (by omega)
        refine ⟨x, ?_, hs⟩
        have ht : (getSelectedIndex ys + 1).toNat = (getSelectedIndex ys).toNat + 1 := by
          omega
        rw [ht, List.getElem?_cons_succ]
        exact hx

lemma gsi_lt_length : ∀ (l : List Item), 0 ≤ getSelectedIndex l →
    getSelectedIndex l < (l.length : Int) := by
  intro l
  induction l with
  | nil => intro h; simp [getSelectedIndex] at h
  | cons y ys ih =>
    intro h
    rw [gsi_cons] at h ⊢
    by_cases hy : y.sel
    · rw [if_pos hy]
      simp only [List.length_cons]
      omega
    · rw [if_neg hy] at h ⊢
      by_cases hr : getSelectedIndex ys < 0
      · rw [if_pos hr] at h
        exfalso; omega
      · rw [if_neg hr] at h ⊢
        have := ih (by omega)
        simp only [List.length_cons]
        omega

lemma gsi_map_sel (f : Item → Item) (hf : ∀ x, (f x).sel = x.sel) :
    ∀ l : List Item, getSelectedIndex (l.map f) = getSelectedIndex l := by
  intro l
  induction l with
  | nil => rfl
  | cons x xs ih =>
    rw [List.map_cons, gsi_cons, gsi_cons, hf, ih]

/-! ### Selection-preservation machinery

`mapSel l` is the list of selected flags; every operation except the two
role flips preserves it, which gives preservation of both `countSel` and
`getSelectedIndex` at once. -/

def mapSel (l : List Item) : List Bool := l.map Item.sel

lemma gsi_eq_of_mapSel : ∀ (l l' : List Item), mapSel l = mapSel l' →
    getSelectedIndex l = getSelectedIndex l' := by
  intro l
  induction l with
  | nil =>
    intro l' h
    cases l' with
    | nil => rfl
    | cons y ys => simp [mapSel] at h
  | cons x xs ih =>
    intro l' h
    cases l' with
    | nil => simp [mapSel] at h
    | cons y ys =>
      simp only [mapSel, List.map_cons, List.cons.injEq] at h
      rw [gsi_cons, gsi_cons, h.1, ih ys h.2]

lemma countSel_eq_countP_mapSel (l : List Item) :
    countSel l = (mapSel l).countP (fun b => b) := by
  unfold countSel mapSel
  rw [List.countP_map]
  rfl

lemma countSel_eq_of_mapSel {l l' : List Item} (h : mapSel l = mapSel l') :
    countSel l = countSel l' := by
  rw [countSel_eq_countP_mapSel, countSel_eq_countP_mapSel, h]

lemma length_eq_of_mapSel {l l' : List Item} (h : mapSel l = mapSel l') :
    l.length = l'.length := by
  have := congrArg List.length h
  simpa [mapSel] using this

lemma mapSel_map (f : Item → Item) (hf : ∀ x, (f x).sel = x.sel)
    (l : List Item) : mapSel (l.map f) = mapSel l := by
  induction l with
  | nil => rfl
  | cons x xs ih => simp only [mapSel, List.map_cons, hf] at ih ⊢; rw [ih]

lemma mapSel_updAt (f : Item → Item) (hf : ∀ x, (f x).sel = x.sel) :
    ∀ (l : List Item) (n : Nat), mapSel (updAt l n f) = mapSel l := by
  intro l
  induction l with
  | nil => intro n; rfl
  | cons x xs ih =>
    intro n
    cases n with
    | zero => simp only [updAt, mapSel, List.map_cons, hf]
    | succ m =>
      simp only [updAt, mapSel, List.map_cons]
      have := ih m
      simp only [mapSel] at this
      rw [this]

lemma mapSel_updAtI (f : Item → Item) (hf : ∀ x, (f x).sel = x.sel)
    (l : List Item) (i : Int) : mapSel (updAtI l i f) = mapSel l := by
  unfold updAtI
  split
  · rfl
  · exact mapSel_updAt f hf l i.toNat

lemma mapSel_recalcList (cfg : Config) (s : Int) (flip : Bool) :
    ∀ (i : Nat) (l : List Item), mapSel (recalcList cfg s flip i l) = mapSel l := by
  intro i l
  induction l generalizing i with
  | nil => rfl
  | cons x xs ih =>
    simp only [recalcList, mapSel, List.map_cons, recalcItem_sel]
    have := ih (i + 1)
    simp only [mapSel] at this
    rw [this]

lemma mapSel_setTransI (b : Bool) (l : List Item) (i : Int) :
    mapSel (updAtI l i (fun it => { it with trans := b })) = mapSel l :=
  mapSel_updAtI (fun it => { it with trans := b }) (fun _ => rfl) l i

lemma mapSel_resetMap (l : List Item) :
    mapSel (l.map (fun it => { it with trans := false })) = mapSel l :=
  mapSel_map (fun it => { it with trans := false }) (fun _ => rfl) l

lemma getItem?_inv {l : List Item} {i : Int} {x : Item}
    (h : getItem? l i = some x) : 0 ≤ i ∧ l[i.toNat]? = some x := by
  unfold getItem? at h
  split at h
  · cases h
  · exact ⟨by omega, h⟩

lemma getItem?_some_of (l : List Item) (i : Int) (h0 : 0 ≤ i)
    (h1 : i.toNat < l.length) : ∃ x, getItem? l i = some x := by
  unfold getItem?
  rw [if_neg (by omega)]
  exact ⟨l[i.toNat], List.getElem?_eq_getElem h1⟩

/-! ### Component inversion lemmas -/

lemma updateIndicators_inv {st : SlideState} {i : Int} {s' : SlideState}
    (h : updateIndicators st i = .ok s') :
    ∃ ind, s' = { st with indicators := some ind } := by
  unfold updateIndicators at h
  cases hI : st.indicators with
  | none => rw [hI] at h; cases h
  | some l =>
    rw [hI] at h
    exact ⟨updateIndicatorsList i 0 l, by cases h; rfl⟩

lemma updateIndicators_ok (st : SlideState) (i : Int) (l : List Bool)
    (hI : st.indicators = some l) :
    updateIndicators st i = .ok { st with indicators := some (updateIndicatorsList i 0 l) } := by
  unfold updateIndicators
  rw [hI]

lemma markTransitioningS_inv {st : SlideState} {i : Int} {s' : SlideState}
    {effs : List Eff} (h : markTransitioningS st i = .ok (s', effs)) :
    ∃ its, s' = { st with items := its } ∧ mapSel its = mapSel st.items := by
  unfold markTransitioningS at h
  split at h
  · refine ⟨st.items, ?_, rfl⟩
    cases h; rfl
  · split at h
    · cases h
    · refine ⟨updAtI st.items i (fun it => { it with trans := true }), ?_, ?_⟩
      · cases h; rfl
      · exact mapSel_setTransI true st.items i

lemma markTransitioningS_noclass (st : SlideState) (i : Int)
    (hc : st.cfg.hasTransitioningClass = false) :
    markTransitioningS st i = .ok (st, []) := by
  unfold markTransitioningS
  rw [if_pos hc]

lemma markTransitioningS_ok (st : SlideState) (i : Int)
    (hc : st.cfg.hasTransitioningClass = true) (h0 : 0 ≤ i)
    (h1 : i.toNat < st.items.length) :
    markTransitioningS st i =
      .ok ({ st with items := updAtI st.items i (fun it => { it with trans := true }) },
        [Eff.markTrans i, Eff.armBackupTimer i backupDelayMs]) := by
  unfold markTransitioningS
  rw [if_neg (by simp [hc])]
  obtain ⟨x, hx⟩ := getItem?_some_of st.items i h0 h1
  rw [hx]

lemma itemRole_inv {st : SlideState} {i : Int} {f : Item → Item}
    {s' : SlideState} (h : itemRole st i f = .ok s') :
    ∃ x, getItem? st.items i = some x ∧
      s' = { st with items := updAtI st.items i f } := by
  unfold itemRole at h
  cases hx : getItem? st.items i with
  | none => rw [hx] at h; cases h
  | some x =>
    rw [hx] at h
    exact ⟨x, rfl, by cases h; rfl⟩

lemma itemRole_ok (st : SlideState) (i : Int) (f : Item → Item) (h0 : 0 ≤ i)
    (h1 : i.toNat < st.items.length) :
    itemRole st i f = .ok { st with items := updAtI st.items i f } := by
  unfold itemRole
  obtain ⟨x, hx⟩ := getItem?_some_of st.items i h0 h1
  rw [hx]

lemma trackerEndDeb_items (st : SlideState) : (trackerEndDeb st).items = st.items := by
  unfold trackerEndDeb; split <;> rfl

lemma trackerEndDeb_cfg (st : SlideState) : (trackerEndDeb st).cfg = st.cfg := by
  unfold trackerEndDeb; split <;> rfl

lemma debounce_state_items (st : SlideState) :
    (debounce st).state.items = st.items ∧ (debounce st).state.cfg = st.cfg ∧
      (debounce st).state.indicators = st.indicators := by
  unfold debounce
  split_ifs <;> exact ⟨rfl, rfl, rfl⟩

lemma resetAll_inv (st : SlideState) :
    (resetAllTransitioning st).cfg = st.cfg ∧
      (resetAllTransitioning st).indicators = st.indicators ∧
      mapSel (resetAllTransitioning st).items = mapSel st.items ∧
      (resetAllTransitioning st).transitioning = st.transitioning ∧
      (resetAllTransitioning st).timeoutVarSet = st.timeoutVarSet ∧
      (resetAllTransitioning st).debounceTimerPending = st.debounceTimerPending := by
  unfold resetAllTransitioning
  split
  · exact ⟨rfl, rfl, mapSel_resetMap st.items, rfl, rfl, rfl⟩
  · exact ⟨rfl, rfl, rfl, rfl, rfl, rfl⟩

lemma mapSel_completeForward (st : SlideState) (p : MovePend) :
    mapSel (completeForward st p).items = mapSel st.items ∧
      (completeForward st p).cfg = st.cfg := by
  unfold completeForward
  split
  · constructor
    · rw [trackerEndDeb_items]
      split
      · simp only [clearTrans, reclauclatePositions]
        rw [mapSel_setTransI, mapSel_recalcList, mapSel_setTransI]
      · simp only [clearTrans]
        rw [mapSel_setTransI, mapSel_setTransI]
    · rw [trackerEndDeb_cfg]
      split <;> rfl
  · constructor
    · split
      · dsimp only
        split
        · simp only [debounceTimeoutBody, reclauclatePositions]
          rw [mapSel_recalcList]
        · simp only [reclauclatePositions]
          rw [mapSel_recalcList]
      · dsimp only
        split <;> rfl
    · split <;> dsimp only <;> split <;> rfl

lemma countSel_completeForward (st : SlideState) (p : MovePend) :
    countSel (completeForward st p).items = countSel st.items ∧
      (completeForward st p).cfg = st.cfg :=
  ⟨countSel_eq_of_mapSel (mapSel_completeForward st p).1,
    (mapSel_completeForward st p).2⟩

lemma mapSel_completeBackward (st : SlideState) (p : MovePend) :
    mapSel (completeBackward st p).items = mapSel st.items ∧
      (completeBackward st p).cfg = st.cfg := by
  unfold completeBackward
  split
  · constructor
    · rw [trackerEndDeb_items]
      split
      · simp only [clearTrans, reclauclatePositions]
        rw [mapSel_setTransI, mapSel_recalcList, mapSel_setTransI]
      · simp only [clearTrans]
        rw [mapSel_setTransI, mapSel_setTransI]
    · rw [trackerEndDeb_cfg]
      split <;> rfl
  · constructor
    · split <;> rfl
    · split <;> rfl

lemma countSel_completeBackward (st : SlideState) (p : MovePend) :
    countSel (completeBackward st p).items = countSel st.items ∧
      (completeBackward st p).cfg = st.cfg :=
  ⟨countSel_eq_of_mapSel (mapSel_completeBackward st p).1,
    (mapSel_completeBackward st p).2⟩

lemma endDebounce_fst (st : SlideState) :
    (endDebounce st).1.items = st.items ∧ (endDebounce st).1.cfg = st.cfg ∧
      (endDebounce st).1.indicators = st.indicators := by
  unfold endDebounce; split <;> exact ⟨rfl, rfl, rfl⟩

/-! ### Operation-level invariant lemmas -/

lemma forwardCore_inv {st : SlideState} {effs : List Eff} {selIdx nextIdx : Int}
    {looping : Bool} {st' : SlideState} {log : List Eff} {p : Option MovePend}
    (h : forwardCore st effs selIdx nextIdx looping = .ok (st', log, p))
    (hsel : getSelectedIndex st.items = selIdx)
    (hcount : countSel st.items = 1) :
    st'.cfg = st.cfg ∧ countSel st'.items = 1 := by
  unfold forwardCore at h
  cases hU : updateIndicators st nextIdx with
  | error e => rw [hU] at h; cases h
  | ok stA =>
    rw [hU] at h
    dsimp only at h
    obtain ⟨ind, hA⟩ := updateIndicators_inv hU
    have hAsel : mapSel stA.items = mapSel st.items := by rw [hA]
    have hAcfg : stA.cfg = st.cfg := by rw [hA]
    set stB := if looping = true then reclauclatePositions stA selIdx true else stA
      with hBdef
    have hBsel : mapSel stB.items = mapSel st.items := by
      rw [hBdef]
      split
      · simp only [reclauclatePositions]
        rw [mapSel_recalcList, hAsel]
      · exact hAsel
    have hBcfg : stB.cfg = st.cfg := by
      rw [hBdef]
      split
      · exact hAcfg
      · exact hAcfg
    cases hM1 : markTransitioningS stB selIdx with
    | error e => rw [hM1] at h; cases h
    | ok pr =>
      obtain ⟨stC, e1⟩ := pr
      rw [hM1] at h
      dsimp only at h
      obtain ⟨its1, hC, hCits⟩ := markTransitioningS_inv hM1
      have hCsel : mapSel stC.items = mapSel st.items := by
        rw [hC]; exact hCits.trans hBsel
      have hCcfg : stC.cfg = st.cfg := by rw [hC]; exact hBcfg
      cases hM2 : markTransitioningS stC nextIdx with
      | error e => rw [hM2] at h; cases h
      | ok pr2 =>
        obtain ⟨stD, e2⟩ := pr2
        rw [hM2] at h
        dsimp only at h
        obtain ⟨its2, hD, hDits⟩ := markTransitioningS_inv hM2
        have hDsel : mapSel stD.items = mapSel st.items := by
          rw [hD]; exact hDits.trans hCsel
        have hDcfg : stD.cfg = st.cfg := by rw [hD]; exact hCcfg
        have hDcount : countSel stD.items = 1 := by
          rw [countSel_eq_of_mapSel hDsel, hcount]
        have hDgsi : getSelectedIndex stD.items = selIdx := by
          rw [gsi_eq_of_mapSel _ _ hDsel, hsel]
        cases hR1 : itemRole stD selIdx (fun it => { it with sel := false, prev := true }) with
        | error e => rw [hR1] at h; cases h
        | ok stE =>
          rw [hR1] at h
          dsimp only at h
          obtain ⟨x, hx, hE⟩ := itemRole_inv hR1
          obtain ⟨hsel0, hxg⟩ := getItem?_inv hx
          have hxsel : x.sel = true := by
            obtain ⟨y, hyg, hysel⟩ := gsi_spec stD.items (by omega)
            rw [hDgsi] at hyg
            rw [hxg] at hyg
            cases hyg
            exact hysel
          have hEcount : countSel stE.items = 0 := by
            rw [hE]
            show countSel (updAtI stD.items selIdx _) = 0
            unfold updAtI
            rw [if_neg (by omega)]
            have := countP_updAt (fun it => it.sel)
              (fun it => { it with sel := false, prev := true })
              stD.items selIdx.toNat x hxg
            simp only [hxsel] at this
            simp at this
            have hDc := hDcount
            simp only [countSel] at hDc ⊢
            omega
          cases hR2 : itemRole stE nextIdx (fun it => { it with next := false, sel := true }) with
          | error e => rw [hR2] at h; cases h
          | ok stF =>
            rw [hR2] at h
            dsimp only at h
            obtain ⟨y, hy, hF⟩ := itemRole_inv hR2
            obtain ⟨hnext0, hyg⟩ := getItem?_inv hy
            have hysel : y.sel = false := countSel_eq_zero_sel hEcount hyg
            have hFcount : countSel stF.items = 1 := by
              rw [hF]
              show countSel (updAtI stE.items nextIdx _) = 1
              unfold updAtI
              rw [if_neg (by omega)]
              have := countP_updAt (fun it => it.sel)
                (fun it => { it with next := false, sel := true })
                stE.items nextIdx.toNat y hyg
              simp only [hysel] at this
              simp at this
              simp only [countSel] at hEcount ⊢
              omega
            have hFcfg : stF.cfg = st.cfg := by
              rw [hF]
              show stE.cfg = st.cfg
              rw [hE]
              exact hDcfg
            cases h
            exact ⟨hFcfg, hFcount⟩

lemma transitionForwardSync_inv {a : Bool} {st st' : SlideState} {log : List Eff}
    {p : Option MovePend} (h : transitionForwardSync a st = .ok (st', log, p))
    (hcount : countSel st.items = 1) :
    st'.cfg = st.cfg ∧ countSel st'.items = 1 := by
  unfold transitionForwardSync at h
  dsimp only at h
  split at h
  · cases h
    obtain ⟨hi, hc, _⟩ := debounce_state_items st
    refine ⟨hc, ?_⟩
    rw [hi, hcount]
  · set st1 := resetAllTransitioning (debounce st).state with h1def
    have h1sel : mapSel st1.items = mapSel st.items := by
      rw [h1def]
      have := (resetAll_inv (debounce st).state).2.2.1
      rw [this, (debounce_state_items st).1]
    have h1cfg : st1.cfg = st.cfg := by
      rw [h1def, (resetAll_inv (debounce st).state).1, (debounce_state_items st).2.1]
    set sa := if a = false ∧ st1.cfg.shouldAutoTransition = true then
        stopAutoTransition st1 else (st1, []) with hsadef
    have h2sel : mapSel sa.1.items = mapSel st.items := by
      rw [hsadef]
      split
      · exact h1sel
      · exact h1sel
    have h2cfg : sa.1.cfg = st.cfg := by
      rw [hsadef]
      split
      · exact h1cfg
      · exact h1cfg
    have h2count : countSel sa.1.items = 1 := by
      rw [countSel_eq_of_mapSel h2sel, hcount]
    split at h
    · split at h
      · cases h
        obtain ⟨hei, hec, _⟩ := endDebounce_fst sa.1
        refine ⟨hec.trans h2cfg, ?_⟩
        rw [hei, h2count]
      · exact forwardCore_inv h rfl h2count |>.imp (fun hc => hc.trans h2cfg) id
    · exact forwardCore_inv h rfl h2count |>.imp (fun hc => hc.trans h2cfg) id

lemma transitionForwardC_inv {a : Bool} {st st' : SlideState} {log : List Eff}
    (h : transitionForwardC a st = .ok (st', log))
    (hcount : countSel st.items = 1) :
    st'.cfg = st.cfg ∧ countSel st'.items = 1 := by
  unfold transitionForwardC at h
  cases hS : transitionForwardSync a st with
  | error e => rw [hS] at h; cases h
  | ok r =>
    obtain ⟨st1, effs, p⟩ := r
    rw [hS] at h
    have hinv := transitionForwardSync_inv hS hcount
    cases p with
    | none => cases h; exact hinv
    | some q =>
      cases h
      obtain ⟨hcs, hcc⟩ := countSel_completeForward st1 q
      exact ⟨hcc.trans hinv.1, by rw [hcs, hinv.2]⟩

lemma backwardCore_inv {st : SlideState} {effs : List Eff} {selIdx prevIdx : Int}
    {looping : Bool} {st' : SlideState} {log : List Eff} {p : Option MovePend}
    (h : backwardCore st effs selIdx prevIdx looping = .ok (st', log, p))
    (hsel : getSelectedIndex st.items = selIdx)
    (hcount : countSel st.items = 1) :
    st'.cfg = st.cfg ∧ countSel st'.items = 1 := by
  unfold backwardCore at h
  cases hU : updateIndicators st prevIdx with
  | error e => rw [hU] at h; cases h
  | ok stA =>
    rw [hU] at h
    dsimp only at h
    obtain ⟨ind, hA⟩ := updateIndicators_inv hU
    have hAsel : mapSel stA.items = mapSel st.items := by rw [hA]
    have hAcfg : stA.cfg = st.cfg := by rw [hA]
    set stB := if looping = true then reclauclatePositions stA selIdx true else stA
      with hBdef
    have hBsel : mapSel stB.items = mapSel st.items := by
      rw [hBdef]
      split
      · simp only [reclauclatePositions]
        rw [mapSel_recalcList, hAsel]
      · exact hAsel
    have hBcfg : stB.cfg = st.cfg := by
      rw [hBdef]
      split
      · exact hAcfg
      · exact hAcfg
    cases hM1 : markTransitioningS stB selIdx with
    | error e => rw [hM1] at h; cases h
    | ok pr =>
      obtain ⟨stC, e1⟩ := pr
      rw [hM1] at h
      dsimp only at h
      obtain ⟨its1, hC, hCits⟩ := markTransitioningS_inv hM1
      have hCsel : mapSel stC.items = mapSel st.items := by
        rw [hC]; exact hCits.trans hBsel
      have hCcfg : stC.cfg = st.cfg := by rw [hC]; exact hBcfg
      cases hM2 : markTransitioningS stC prevIdx with
      | error e => rw [hM2] at h; cases h
      | ok pr2 =>
        obtain ⟨stD, e2⟩ := pr2
        rw [hM2] at h
        dsimp only at h
        obtain ⟨its2, hD, hDits⟩ := markTransitioningS_inv hM2
        have hDsel : mapSel stD.items = mapSel st.items := by
          rw [hD]; exact hDits.trans hCsel
        have hDcfg : stD.cfg = st.cfg := by rw [hD]; exact hCcfg
        have hDcount : countSel stD.items = 1 := by
          rw [countSel_eq_of_mapSel hDsel, hcount]
        have hDgsi : getSelectedIndex stD.items = selIdx := by
          rw [gsi_eq_of_mapSel _ _ hDsel, hsel]
        cases hR1 : itemRole stD selIdx (fun it => { it with sel := false, next := true }) with
        | error e => rw [hR1] at h; cases h
        | ok stE =>
          rw [hR1] at h
          dsimp only at h
          obtain ⟨x, hx, hE⟩ := itemRole_inv hR1
          obtain ⟨hsel0, hxg⟩ := getItem?_inv hx
          have hxsel : x.sel = true := by
            obtain ⟨y, hyg, hysel⟩ := gsi_spec stD.items (by omega)
            rw [hDgsi] at hyg
            rw [hxg] at hyg
            cases hyg
            exact hysel
          have hEcount : countSel stE.items = 0 := by
            rw [hE]
            show countSel (updAtI stD.items selIdx _) = 0
            unfold updAtI
            rw [if_neg (by omega)]
            have := countP_updAt (fun it => it.sel)
              (fun it => { it with sel := false, next := true })
              stD.items selIdx.toNat x hxg
            simp only [hxsel] at this
            simp at this
            have hDc := hDcount
            simp only [countSel] at hDc ⊢
            omega
          cases hR2 : itemRole stE prevIdx (fun it => { it with prev := false, sel := true }) with
          | error e => rw [hR2] at h; cases h
          | ok stF =>
            rw [hR2] at h
            dsimp only at h
            obtain ⟨y, hy, hF⟩ := itemRole_inv hR2
            obtain ⟨hnext0, hyg⟩ := getItem?_inv hy
            have hysel : y.sel = false := countSel_eq_zero_sel hEcount hyg
            have hFcount : countSel stF.items = 1 := by
              rw [hF]
              show countSel (updAtI stE.items prevIdx _) = 1
              unfold updAtI
              rw [if_neg (by omega)]
              have := countP_updAt (fun it => it.sel)
                (fun it => { it with prev := false, sel := true })
                stE.items prevIdx.toNat y hyg
              simp only [hysel] at this
              simp at this
              simp only [countSel] at hEcount ⊢
              omega
            have hFcfg : stF.cfg = st.cfg := by
              rw [hF]
              show stE.cfg = st.cfg
              rw [hE]
              exact hDcfg
            cases h
            exact ⟨hFcfg, hFcount⟩

lemma transitionBackwardSync_inv {a : Bool} {st st' : SlideState} {log : List Eff}
    {p : Option MovePend} (h : transitionBackwardSync a st = .ok (st', log, p))
    (hcount : countSel st.items = 1) :
    st'.cfg = st.cfg ∧ countSel st'.items = 1 := by
  unfold transitionBackwardSync at h
  dsimp only at h
  split at h
  · cases h
    obtain ⟨hi, hc, _⟩ := debounce_state_items st
    refine ⟨hc, ?_⟩
    rw [hi, hcount]
  · set st1 := resetAllTransitioning (debounce st).state with h1def
    have h1sel : mapSel st1.items = mapSel st.items := by
      rw [h1def]
      have := (resetAll_inv (debounce st).state).2.2.1
      rw [this, (debounce_state_items st).1]
    have h1cfg : st1.cfg = st.cfg := by
      rw [h1def, (resetAll_inv (debounce st).state).1, (debounce_state_items st).2.1]
    set sa := if a = false ∧ st1.cfg.shouldAutoTransition = true then
        stopAutoTransition st1 else (st1, []) with hsadef
    have h2sel : mapSel sa.1.items = mapSel st.items := by
      rw [hsadef]
      split
      · exact h1sel
      · exact h1sel
    have h2cfg : sa.1.cfg = st.cfg := by
      rw [hsadef]
      split
      · exact h1cfg
      · exact h1cfg
    have h2count : countSel sa.1.items = 1 := by
      rw [countSel_eq_of_mapSel h2sel, hcount]
    split at h
    · split at h
      · cases h
        obtain ⟨hei, hec, _⟩ := endDebounce_fst sa.1
        refine ⟨hec.trans h2cfg, ?_⟩
        rw [hei, h2count]
      · exact backwardCore_inv h rfl h2count |>.imp (fun hc => hc.trans h2cfg) id
    · exact backwardCore_inv h rfl h2count |>.imp (fun hc => hc.trans h2cfg) id

lemma transitionBackwardC_inv {a : Bool} {st st' : SlideState} {log : List Eff}
    (h : transitionBackwardC a st = .ok (st', log))
    (hcount : countSel st.items = 1) :
    st'.cfg = st.cfg ∧ countSel st'.items = 1 := by
  unfold transitionBackwardC at h
  cases hS : transitionBackwardSync a st with
  | error e => rw [hS] at h; cases h
  | ok r =>
    obtain ⟨st1, effs, p⟩ := r
    rw [hS] at h
    have hinv := transitionBackwardSync_inv hS hcount
    cases p with
    | none => cases h; exact hinv
    | some q =>
      cases h
      obtain ⟨hcs, hcc⟩ := countSel_completeBackward st1 q
      exact ⟨hcc.trans hinv.1, by rw [hcs, hinv.2]⟩

lemma chainFinal_core_inv {st1 : SlideState} {t : Int} (f : Item → Item)
    (hf : ∀ x, (f x).sel = true) {st2 : SlideState}
    (h : itemRole st1 t f = .ok st2) (hcount : countSel st1.items = 0) :
    countSel st2.items = 1 ∧ st2.cfg = st1.cfg := by
  obtain ⟨y, hy, h2⟩ := itemRole_inv h
  obtain ⟨h0, hyg⟩ := getItem?_inv hy
  have hysel : y.sel = false := countSel_eq_zero_sel hcount hyg
  constructor
  · rw [h2]
    show countSel (updAtI st1.items t f) = 1
    unfold updAtI
    rw [if_neg (by omega)]
    have h5 := countP_updAt (fun it => it.sel) f st1.items t.toNat y hyg
    simp only [hysel, hf] at h5
    simp at h5
    have hc := hcount
    simp only [countSel] at hc ⊢
    omega
  · rw [h2]

lemma chainFinal_inv {st : SlideState} {pd : Bool} {t : Int} {effs : List Eff}
    {st' : SlideState} {log : List Eff}
    (h : chainFinal st pd t effs = .ok (st', log))
    (hcount : countSel st.items = 0) :
    st'.cfg = st.cfg ∧ countSel st'.items = 1 := by
  unfold chainFinal at h
  cases hM : markTransitioningS st t with
  | error e => rw [hM] at h; cases h
  | ok pr =>
    obtain ⟨st1, e1⟩ := pr
    rw [hM] at h
    dsimp only at h
    obtain ⟨its1, h1, h1its⟩ := markTransitioningS_inv hM
    have h1sel : mapSel st1.items = mapSel st.items := by rw [h1]; exact h1its
    have h1cfg : st1.cfg = st.cfg := by rw [h1]
    have h1count : countSel st1.items = 0 := by
      rw [countSel_eq_of_mapSel h1sel, hcount]
    cases hR : itemRole st1 t
        (if pd = true then (fun it => { it with next := false, sel := true })
          else (fun it => { it with prev := false, sel := true })) with
    | error e => rw [hR] at h; cases h
    | ok st2 =>
      rw [hR] at h
      dsimp only at h
      have hcore := chainFinal_core_inv _ (by intro x; cases pd <;> rfl) hR h1count
      cases h
      constructor
      · rw [trackerEndDeb_cfg]
        show st2.cfg = st.cfg
        exact hcore.2.trans h1cfg
      · rw [trackerEndDeb_items]
        have : countSel (clearTrans st2 t).items = countSel st2.items := by
          simp only [clearTrans]
          exact countSel_eq_of_mapSel (mapSel_setTransI false st2.items t)
        rw [this, hcore.1]

lemma chainPrev_inv (s t : Int) :
    ∀ (rem : Nat) (i : Nat) (st : SlideState) (effs : List Eff)
      (st' : SlideState) (log : List Eff),
      chainPrev s t rem i st effs = .ok (st', log) →
      countSel st.items = 0 →
      st'.cfg = st.cfg ∧ countSel st'.items = 1 := by
  intro rem
  induction rem with
  | zero =>
    intro i st effs st' log h hc
    exact chainFinal_inv h hc
  | succ n ih =>
    intro i st effs st' log h hc
    · unfold chainPrev at h
      dsimp only at h
      cases hM : markTransitioningS st (s + (i : Int)) with
      | error e => rw [hM] at h; cases h
      | ok pr =>
        obtain ⟨st1, e1⟩ := pr
        rw [hM] at h
        dsimp only at h
        obtain ⟨its1, h1, h1its⟩ := markTransitioningS_inv hM
        have h1sel : mapSel st1.items = mapSel st.items := by rw [h1]; exact h1its
        have h1cfg : st1.cfg = st.cfg := by rw [h1]
        cases hR : itemRole st1 (s + (i : Int))
            (fun it => { it with next := false, prev := true }) with
        | error e => rw [hR] at h; cases h
        | ok st2 =>
          rw [hR] at h
          dsimp only at h
          obtain ⟨y, hy, h2⟩ := itemRole_inv hR
          have h2sel : mapSel st2.items = mapSel st.items := by
            rw [h2]
            show mapSel (updAtI st1.items _ _) = mapSel st.items
            rw [mapSel_updAtI (fun it => { it with next := false, prev := true })
              (fun x => rfl), h1sel]
          have h2cfg : st2.cfg = st.cfg := by rw [h2]; exact h1cfg
          have h3sel : mapSel (clearTrans st2 (s + (i : Int))).items = mapSel st.items := by
            simp only [clearTrans]
            rw [mapSel_setTransI, h2sel]
          have h3count : countSel (clearTrans st2 (s + (i : Int))).items = 0 := by
            rw [countSel_eq_of_mapSel h3sel, hc]
          have := ih (i + 1) _ _ _ _ h h3count
          exact ⟨this.1.trans h2cfg, this.2⟩

lemma chainNext_inv (s t : Int) :
    ∀ (rem : Nat) (i : Nat) (st : SlideState) (effs : List Eff)
      (st' : SlideState) (log : List Eff),
      chainNext s t rem i st effs = .ok (st', log) →
      countSel st.items = 0 →
      st'.cfg = st.cfg ∧ countSel st'.items = 1 := by
  intro rem
  induction rem with
  | zero =>
    intro i st effs st' log h hc
    exact chainFinal_inv h hc
  | succ n ih =>
    intro i st effs st' log h hc
    · unfold chainNext at h
      dsimp only at h
      cases hM : markTransitioningS st (s - (i : Int)) with
      | error e => rw [hM] at h; cases h
      | ok pr =>
        obtain ⟨st1, e1⟩ := pr
        rw [hM] at h
        dsimp only at h
        obtain ⟨its1, h1, h1its⟩ := markTransitioningS_inv hM
        have h1sel : mapSel st1.items = mapSel st.items := by rw [h1]; exact h1its
        have h1cfg : st1.cfg = st.cfg := by rw [h1]
        cases hR : itemRole st1 (s - (i : Int))
            (fun it => { it with prev := false, next := true }) with
        | error e => rw [hR] at h; cases h
        | ok st2 =>
          rw [hR] at h
          dsimp only at h
          obtain ⟨y, hy, h2⟩ := itemRole_inv hR
          have h2sel : mapSel st2.items = mapSel st.items := by
            rw [h2]
            show mapSel (updAtI st1.items _ _) = mapSel st.items
            rw [mapSel_updAtI (fun it => { it with prev := false, next := true })
              (fun x => rfl), h1sel]
          have h2cfg : st2.cfg = st.cfg := by rw [h2]; exact h1cfg
          have h3sel : mapSel (clearTrans st2 (s - (i : Int))).items = mapSel st.items := by
            simp only [clearTrans]
            rw [mapSel_setTransI, h2sel]
          have h3count : countSel (clearTrans st2 (s - (i : Int))).items = 0 := by
            rw [countSel_eq_of_mapSel h3sel, hc]
          have := ih (i + 1) _ _ _ _ h h3count
          exact ⟨this.1.trans h2cfg, this.2⟩

lemma completeTo_inv {st : SlideState} {p : ToPend} {st' : SlideState} {log : List Eff}
    (h : completeTo st p = .ok (st', log))
    (hcls : st.cfg.hasTransitioningClass = true)
    (hcount : countSel st.items = 0) :
    st'.cfg = st.cfg ∧ countSel st'.items = 1 := by
  unfold completeTo at h
  rw [if_pos hcls] at h
  dsimp only at h
  have hclr : countSel (clearTrans st p.selIdx).items = 0 := by
    simp only [clearTrans]
    rw [countSel_eq_of_mapSel (mapSel_setTransI false st.items p.selIdx), hcount]
  split at h
  · have := chainPrev_inv p.selIdx p.target ((p.target - p.selIdx).toNat - 1)
      1 _ _ _ _ h hclr
    exact ⟨this.1, this.2⟩
  · have := chainNext_inv p.selIdx p.target ((p.selIdx - p.target).toNat - 1)
      1 _ _ _ _ h hclr
    exact ⟨this.1, this.2⟩

lemma transitionToSync_inv {t : Int} {st st' : SlideState} {log : List Eff}
    {p : Option ToPend} (h : transitionToSync t st = .ok (st', log, p))
    (hcount : countSel st.items = 1) :
    st'.cfg = st.cfg ∧ (p = none → countSel st'.items = 1) ∧
      (∀ q, p = some q → countSel st'.items = 0) := by
  unfold transitionToSync at h
  dsimp only at h
  split at h
  · cases h
    exact ⟨rfl, fun _ => hcount, fun q hq => Option.noConfusion hq⟩
  · split at h
    · cases h
      obtain ⟨hi, hc, _⟩ := debounce_state_items st
      exact ⟨hc, fun _ => by rw [hi, hcount], fun q hq => Option.noConfusion hq⟩
    · set st1 := resetAllTransitioning (debounce st).state with h1def
      have h1sel : mapSel st1.items = mapSel st.items := by
        rw [h1def]
        have := (resetAll_inv (debounce st).state).2.2.1
        rw [this, (debounce_state_items st).1]
      have h1cfg : st1.cfg = st.cfg := by
        rw [h1def, (resetAll_inv (debounce st).state).1,
          (debounce_state_items st).2.1]
      set sa := if st1.cfg.shouldAutoTransition = true then
          stopAutoTransition st1 else (st1, []) with hsadef
      have h2sel : mapSel sa.1.items = mapSel st.items := by
        rw [hsadef]
        split
        · exact h1sel
        · exact h1sel
      have h2cfg : sa.1.cfg = st.cfg := by
        rw [hsadef]
        split
        · exact h1cfg
        · exact h1cfg
      have h2count : countSel sa.1.items = 1 := by
        rw [countSel_eq_of_mapSel h2sel, hcount]
      have h2gsi : getSelectedIndex sa.1.items = getSelectedIndex st.items :=
        gsi_eq_of_mapSel _ _ h2sel
      have hmain : ∀ (stB : SlideState) (g : Item → Item),
          (∀ x, (g x).sel = false) →
          mapSel stB.items = mapSel st.items →
          ∀ st2, itemRole stB (getSelectedIndex st.items) g = .ok st2 →
          countSel st2.items = 0 ∧ st2.cfg = stB.cfg := by
        intro stB g hg hBsel st2 hR
        have hBcount : countSel stB.items = 1 := by
          rw [countSel_eq_of_mapSel hBsel, hcount]
        have hBgsi : getSelectedIndex stB.items = getSelectedIndex st.items :=
          gsi_eq_of_mapSel _ _ hBsel
        have hB0 : 0 ≤ getSelectedIndex stB.items := by
          by_contra hneg
          push_neg at hneg
          have := (gsi_neg_iff stB.items).mp (by omega)
          omega
        obtain ⟨x, hxg, hxsel⟩ := gsi_spec stB.items hB0
        obtain ⟨y, hy, h2⟩ := itemRole_inv hR
        obtain ⟨hy0, hyg⟩ := getItem?_inv hy
        rw [hBgsi] at hxg
        rw [hxg] at hyg
        cases hyg
        refine ⟨?_, by rw [h2]⟩
        rw [h2]
        show countSel (updAtI stB.items _ g) = 0
        unfold updAtI
        rw [if_neg (by omega)]
        have h5 := countP_updAt (fun it => it.sel) g stB.items
          (getSelectedIndex st.items).toNat x hxg
        simp only [hxsel, hg] at h5
        simp at h5
        have hBc := hBcount
        simp only [countSel] at hBc ⊢
        omega
      cases hU : updateIndicators sa.1 t with
      | error e => rw [hU] at h; cases h
      | ok stA =>
        rw [hU] at h
        dsimp only at h
        obtain ⟨ind, hA⟩ := updateIndicators_inv hU
        have hAsel : mapSel stA.items = mapSel st.items := by rw [hA]; exact h2sel
        have hAcfg : stA.cfg = st.cfg := by rw [hA]; exact h2cfg
        split at h
        · cases hM : markTransitioningS stA (getSelectedIndex st.items) with
          | error e => rw [hM] at h; cases h
          | ok pr =>
            obtain ⟨stB, e1⟩ := pr
            rw [hM] at h
            dsimp only at h
            obtain ⟨its1, hB, hBits⟩ := markTransitioningS_inv hM
            have hBsel : mapSel stB.items = mapSel st.items := by
              rw [hB]; exact hBits.trans hAsel
            have hBcfg : stB.cfg = st.cfg := by rw [hB]; exact hAcfg
            cases hR : itemRole stB (getSelectedIndex st.items)
                (fun it => { it with sel := false, prev := true }) with
            | error e => rw [hR] at h; cases h
            | ok stC =>
              rw [hR] at h
              dsimp only at h
              have hres := hmain stB _ (fun x => rfl) hBsel stC hR
              cases h
              exact ⟨hres.2.trans hBcfg, fun hq => Option.noConfusion hq,
                fun q hq => hres.1⟩
        · cases hM : markTransitioningS stA (getSelectedIndex st.items) with
          | error e => rw [hM] at h; cases h
          | ok pr =>
            obtain ⟨stB, e1⟩ := pr
            rw [hM] at h
            dsimp only at h
            obtain ⟨its1, hB, hBits⟩ := markTransitioningS_inv hM
            have hBsel : mapSel stB.items = mapSel st.items := by
              rw [hB]; exact hBits.trans hAsel
            have hBcfg : stB.cfg = st.cfg := by rw [hB]; exact hAcfg
            cases hR : itemRole stB (getSelectedIndex st.items)
                (fun it => { it with sel := false, next := true }) with
            | error e => rw [hR] at h; cases h
            | ok stC =>
              rw [hR] at h
              dsimp only at h
              have hres := hmain stB _ (fun x => rfl) hBsel stC hR
              cases h
              exact ⟨hres.2.trans hBcfg, fun hq => Option.noConfusion hq,
                fun q hq => hres.1⟩

lemma transitionToC_inv {t : Int} {st st' : SlideState} {log : List Eff}
    (h : transitionToC t st = .ok (st', log))
    (hcls : st.cfg.hasTransitioningClass = true)
    (hcount : countSel st.items = 1) :
    st'.cfg = st.cfg ∧ countSel st'.items = 1 := by
  unfold transitionToC at h
  cases hS : transitionToSync t st with
  | error e => rw [hS] at h; cases h
  | ok r =>
    obtain ⟨st1, effs, p⟩ := r
    rw [hS] at h
    obtain ⟨hc1, hn, hs⟩ := transitionToSync_inv hS hcount
    cases p with
    | none =>
      cases h
      exact ⟨hc1, hn rfl⟩
    | some q =>
      dsimp only at h
      cases hC : completeTo st1 q with
      | error e => rw [hC] at h; cases h
      | ok pr =>
        obtain ⟨st2, e2⟩ := pr
        rw [hC] at h
        dsimp only at h
        cases h
        have hres := completeTo_inv hC (by rw [hc1]; exact hcls) (hs q rfl)
        exact ⟨hres.1.trans hc1, hres.2⟩

/-! ### Tracker lemmas -/

lemma tkStep_reach {t : Tracker} (h : tkReach t) (e : TkEv) : tkReach (tkStep t e) := by
  rcases h with h | h | h | h <;> subst h <;> cases e <;> decide

lemma tkRun_reach {t : Tracker} (h : tkReach t) (tr : List TkEv) :
    tkReach (tkRun t tr) := by
  induction tr generalizing t with
  | nil => exact h
  | cons e es ih => exact ih (tkStep_reach h e)

lemma tkReach_fired_le {t : Tracker} (h : tkReach t) : t.fired ≤ 1 := by
  rcases h with h | h | h | h <;> subst h <;> decide

lemma tkRun_fired_absorb {t : Tracker} (h : tkReach t) (hf : t.fired = 1)
    (tr : List TkEv) : (tkRun t tr).fired = 1 := by
  induction tr generalizing t with
  | nil => exact hf
  | cons e es ih =>
    refine ih (tkStep_reach h e) ?_
    rcases h with h | h | h | h <;> subst h <;> cases e <;> decide

lemma tkRun_nosignal {t : Tracker}
    (h : t = mkTracker ∨
      t = { itemTrans := true, attached := true, backupVarSet := false
            backupPending := false, fired := 1 })
    (tr : List TkEv) (hs : TkEv.signal ∉ tr) :
    (tkRun t tr).itemTrans = true := by
  induction tr generalizing t with
  | nil => rcases h with h | h <;> subst h <;> decide
  | cons e es ih =>
    have he : e = TkEv.timeout := by
      cases e
      · exact absurd (List.mem_cons_self _ _) hs
      · rfl
    subst he
    refine ih ?_ (fun hm => hs (List.mem_cons_of_mem _ hm))
    rcases h with h | h <;> subst h <;> right <;> decide

lemma resetAll_of_clean (st : SlideState)
    (htags : ∀ it ∈ st.items, it.trans = false) :
    resetAllTransitioning st = st := by
  unfold resetAllTransitioning
  split
  · have hmap : st.items.map (fun it => { it with trans := false }) = st.items := by
      have hpt : ∀ it ∈ st.items, ({ it with trans := false } : Item) = it := by
        intro it hmem
        have := htags it hmem
        cases it
        simp_all
      calc st.items.map (fun it => { it with trans := false })
          = st.items.map id := List.map_congr_left (fun a ha => by rw [hpt a ha]; rfl)
        _ = st.items := List.map_id _
    rw [hmap]
  · rfl

/-! ### No-throw lemmas -/

lemma updateIndicators_error {st : SlideState} {i : Int} {e : String}
    (h : updateIndicators st i = .error e) : st.indicators = none := by
  unfold updateIndicators at h
  cases hI : st.indicators with
  | none => rfl
  | some l => rw [hI] at h; cases h

lemma markTransitioningS_error {st : SlideState} {i : Int} {e : String}
    (h : markTransitioningS st i = .error e) : getItem? st.items i = none := by
  unfold markTransitioningS at h
  split at h
  · cases h
  · cases hx : getItem? st.items i with
    | none => rfl
    | some x => rw [hx] at h; cases h

lemma itemRole_error {st : SlideState} {i : Int} {f : Item → Item} {e : String}
    (h : itemRole st i f = .error e) : getItem? st.items i = none := by
  unfold itemRole at h
  cases hx : getItem? st.items i with
  | none => rfl
  | some x => rw [hx] at h; cases h

lemma getItem?_ne_none (l : List Item) (i : Int) (h0 : 0 ≤ i)
    (h1 : i.toNat < l.length) : getItem? l i ≠ none := by
  obtain ⟨x, hx⟩ := getItem?_some_of l i h0 h1
  simp [hx]

lemma forwardCore_isOk (st : SlideState) (effs : List Eff) (selIdx nextIdx : Int)
    (looping : Bool) (hI : st.indicators ≠ none)
    (hs0 : 0 ≤ selIdx) (hsl : selIdx.toNat < st.items.length)
    (hn0 : 0 ≤ nextIdx) (hnl : nextIdx.toNat < st.items.length) :
    isOk (forwardCore st effs selIdx nextIdx looping) = true := by
  unfold forwardCore
  cases hU : updateIndicators st nextIdx with
  | error e => exact absurd (updateIndicators_error hU) hI
  | ok stA =>
    dsimp only
    obtain ⟨ind, hA⟩ := updateIndicators_inv hU
    set stB := if looping = true then reclauclatePositions stA selIdx true else stA
      with hBdef
    have hBlen : stB.items.length = st.items.length := by
      rw [hBdef]
      split
      · show (recalcList _ _ _ 0 stA.items).length = _
        rw [length_recalcList]
        rw [hA]
      · rw [hA]
    cases hM1 : markTransitioningS stB selIdx with
    | error e =>
      exact absurd (markTransitioningS_error hM1)
        (getItem?_ne_none _ _ hs0 (by omega))
    | ok pr =>
      obtain ⟨stC, e1⟩ := pr
      dsimp only
      obtain ⟨its1, hC, hCits⟩ := markTransitioningS_inv hM1
      have hClen : stC.items.length = st.items.length := by
        rw [hC]
        show its1.length = _
        rw [length_eq_of_mapSel hCits, hBlen]
      cases hM2 : markTransitioningS stC nextIdx with
      | error e =>
        exact absurd (markTransitioningS_error hM2)
          (getItem?_ne_none _ _ hn0 (by omega))
      | ok pr2 =>
        obtain ⟨stD, e2⟩ := pr2
        dsimp only
        obtain ⟨its2, hD, hDits⟩ := markTransitioningS_inv hM2
        have hDlen : stD.items.length = st.items.length := by
          rw [hD]
          show its2.length = _
          rw [length_eq_of_mapSel hDits, hClen]
        cases hR1 : itemRole stD selIdx (fun it => { it with sel := false, prev := true }) with
        | error e =>
          exact absurd (itemRole_error hR1) (getItem?_ne_none _ _ hs0 (by omega))
        | ok stE =>
          dsimp only
          obtain ⟨x, hx, hE⟩ := itemRole_inv hR1
          have hElen : stE.items.length = st.items.length := by
            rw [hE]
            show (updAtI stD.items selIdx _).length = _
            rw [length_updAtI, hDlen]
          cases hR2 : itemRole stE nextIdx (fun it => { it with next := false, sel := true }) with
          | error e =>
            exact absurd (itemRole_error hR2) (getItem?_ne_none _ _ hn0 (by omega))
          | ok stF => rfl

lemma backwardCore_isOk (st : SlideState) (effs : List Eff) (selIdx prevIdx : Int)
    (looping : Bool) (hI : st.indicators ≠ none)
    (hs0 : 0 ≤ selIdx) (hsl : selIdx.toNat < st.items.length)
    (hn0 : 0 ≤ prevIdx) (hnl : prevIdx.toNat < st.items.length) :
    isOk (backwardCore st effs selIdx prevIdx looping) = true := by
  unfold backwardCore
  cases hU : updateIndicators st prevIdx with
  | error e => exact absurd (updateIndicators_error hU) hI
  | ok stA =>
    dsimp only
    obtain ⟨ind, hA⟩ := updateIndicators_inv hU
    set stB := if looping = true then reclauclatePositions stA selIdx true else stA
      with hBdef
    have hBlen : stB.items.length = st.items.length := by
      rw [hBdef]
      split
      · show (recalcList _ _ _ 0 stA.items).length = _
        rw [length_recalcList]
        rw [hA]
      · rw [hA]
    cases hM1 : markTransitioningS stB selIdx with
    | error e =>
      exact absurd (markTransitioningS_error hM1)
        (getItem?_ne_none _ _ hs0 (by omega))
    | ok pr =>
      obtain ⟨stC, e1⟩ := pr
      dsimp only
      obtain ⟨its1, hC, hCits⟩ := markTransitioningS_inv hM1
      have hClen : stC.items.length = st.items.length := by
        rw [hC]
        show its1.length = _
        rw [length_eq_of_mapSel hCits, hBlen]
      cases hM2 : markTransitioningS stC prevIdx with
      | error e =>
        exact absurd (markTransitioningS_error hM2)
          (getItem?_ne_none _ _ hn0 (by omega))
      | ok pr2 =>
        obtain ⟨stD, e2⟩ := pr2
        dsimp only
        obtain ⟨its2, hD, hDits⟩ := markTransitioningS_inv hM2
        have hDlen : stD.items.length = st.items.length := by
          rw [hD]
          show its2.length = _
          rw [length_eq_of_mapSel hDits, hClen]
        cases hR1 : itemRole stD selIdx (fun it => { it with sel := false, next := true }) with
        | error e =>
          exact absurd (itemRole_error hR1) (getItem?_ne_none _ _ hs0 (by omega))
        | ok stE =>
          dsimp only
          obtain ⟨x, hx, hE⟩ := itemRole_inv hR1
          have hElen : stE.items.length = st.items.length := by
            rw [hE]
            show (updAtI stD.items selIdx _).length = _
            rw [length_updAtI, hDlen]
          cases hR2 : itemRole stE prevIdx (fun it => { it with prev := false, sel := true }) with
          | error e =>
            exact absurd (itemRole_error hR2) (getItem?_ne_none _ _ hn0 (by omega))
          | ok stF => rfl

lemma transitionForwardSync_isOk (a : Bool) (st : SlideState)
    (hI : st.indicators ≠ none) (hSel : 0 ≤ getSelectedIndex st.items) :
    isOk (transitionForwardSync a st) = true := by
  unfold transitionForwardSync
  dsimp only
  split
  · rfl
  · set st1 := resetAllTransitioning (debounce st).state with h1def
    have h1sel : mapSel st1.items = mapSel st.items := by
      rw [h1def]
      have := (resetAll_inv (debounce st).state).2.2.1
      rw [this, (debounce_state_items st).1]
    have h1ind : st1.indicators = st.indicators := by
      rw [h1def, (resetAll_inv (debounce st).state).2.1,
        (debounce_state_items st).2.2]
    set sa := if a = false ∧ st1.cfg.shouldAutoTransition = true then
        stopAutoTransition st1 else (st1, []) with hsadef
    have h2sel : mapSel sa.1.items = mapSel st.items := by
      rw [hsadef]
      split
      · exact h1sel
      · exact h1sel
    have h2ind : sa.1.indicators = st.indicators := by
      rw [hsadef]
      split
      · exact h1ind
      · exact h1ind
    have h2gsi : getSelectedIndex sa.1.items = getSelectedIndex st.items :=
      gsi_eq_of_mapSel _ _ h2sel
    have h2len : sa.1.items.length = st.items.length := length_eq_of_mapSel h2sel
    have hSel2 : 0 ≤ getSelectedIndex sa.1.items := by rw [h2gsi]; exact hSel
    have hlt2 : getSelectedIndex sa.1.items < (sa.1.items.length : Int) :=
      gsi_lt_length sa.1.items hSel2
    by_cases hb : getSelectedIndex sa.1.items + 1 = (sa.1.items.length : Int)
    · rw [if_pos hb]
      by_cases hl : sa.1.cfg.loop = false
      · rw [if_pos hl]
        rfl
      · rw [if_neg hl]
        exact forwardCore_isOk sa.1 _ _ 0 true (by rw [h2ind]; exact hI)
          hSel2 (by omega) (by omega) (by omega)
    · rw [if_neg hb]
      exact forwardCore_isOk sa.1 _ _ _ false (by rw [h2ind]; exact hI)
        hSel2 (by omega) (by omega) (by omega)

lemma transitionBackwardSync_isOk (a : Bool) (st : SlideState)
    (hI : st.indicators ≠ none) (hSel : 0 ≤ getSelectedIndex st.items) :
    isOk (transitionBackwardSync a st) = true := by
  unfold transitionBackwardSync
  dsimp only
  split
  · rfl
  · set st1 := resetAllTransitioning (debounce st).state with h1def
    have h1sel : mapSel st1.items = mapSel st.items := by
      rw [h1def]
      have := (resetAll_inv (debounce st).state).2.2.1
      rw [this, (debounce_state_items st).1]
    have h1ind : st1.indicators = st.indicators := by
      rw [h1def, (resetAll_inv (debounce st).state).2.1,
        (debounce_state_items st).2.2]
    set sa := if a = false ∧ st1.cfg.shouldAutoTransition = true then
        stopAutoTransition st1 else (st1, []) with hsadef
    have h2sel : mapSel sa.1.items = mapSel st.items := by
      rw [hsadef]
      split
      · exact h1sel
      · exact h1sel
    have h2ind : sa.1.indicators = st.indicators := by
      rw [hsadef]
      split
      · exact h1ind
      · exact h1ind
    have h2gsi : getSelectedIndex sa.1.items = getSelectedIndex st.items :=
      gsi_eq_of_mapSel _ _ h2sel
    have h2len : sa.1.items.length = st.items.length := length_eq_of_mapSel h2sel
    have hSel2 : 0 ≤ getSelectedIndex sa.1.items := by rw [h2gsi]; exact hSel
    have hlt2 : getSelectedIndex sa.1.items < (sa.1.items.length : Int) :=
      gsi_lt_length sa.1.items hSel2
    by_cases hb : getSelectedIndex sa.1.items - 1 < 0
    · rw [if_pos hb]
      by_cases hl : sa.1.cfg.loop = false
      · rw [if_pos hl]
        rfl
      · rw [if_neg hl]
        exact backwardCore_isOk sa.1 _ _ _ true (by rw [h2ind]; exact hI)
          hSel2 (by omega) (by omega) (by omega)
    · rw [if_neg hb]
      exact backwardCore_isOk sa.1 _ _ _ false (by rw [h2ind]; exact hI)
        hSel2 (by omega) (by omega) (by omega)

lemma transitionToSync_isOk (t : Int) (st : SlideState)
    (hI : st.indicators ≠ none) (hSel : 0 ≤ getSelectedIndex st.items) :
    isOkTo (transitionToSync t st) = true := by
  unfold transitionToSync
  dsimp only
  split
  · rfl
  · split
    · rfl
    · set st1 := resetAllTransitioning (debounce st).state with h1def
      have h1sel : mapSel st1.items = mapSel st.items := by
        rw [h1def]
        have := (resetAll_inv (debounce st).state).2.2.1
        rw [this, (debounce_state_items st).1]
      have h1ind : st1.indicators = st.indicators := by
        rw [h1def, (resetAll_inv (debounce st).state).2.1,
          (debounce_state_items st).2.2]
      set sa := if st1.cfg.shouldAutoTransition = true then
          stopAutoTransition st1 else (st1, []) with hsadef
      have h2sel : mapSel sa.1.items = mapSel st.items := by
        rw [hsadef]
        split
        · exact h1sel
        · exact h1sel
      have h2ind : sa.1.indicators = st.indicators := by
        rw [hsadef]
        split
        · exact h1ind
        · exact h1ind
      cases hU : updateIndicators sa.1 t with
      | error e =>
        exact absurd (updateIndicators_error hU) (by rw [h2ind]; exact hI)
      | ok stA =>
        dsimp only
        obtain ⟨ind, hA⟩ := updateIndicators_inv hU
        have hAsel : mapSel stA.items = mapSel st.items := by rw [hA]; exact h2sel
        have hAgsi : getSelectedIndex stA.items = getSelectedIndex st.items :=
          gsi_eq_of_mapSel _ _ hAsel
        have hAlen : stA.items.length = st.items.length := length_eq_of_mapSel hAsel
        have hAlt : getSelectedIndex stA.items < (stA.items.length : Int) :=
          gsi_lt_length stA.items (by rw [hAgsi]; exact hSel)
        split
        · cases hM : markTransitioningS stA (getSelectedIndex st.items) with
          | error e =>
            exact absurd (markTransitioningS_error hM)
              (getItem?_ne_none _ _ hSel (by omega))
          | ok pr =>
            obtain ⟨stB, e1⟩ := pr
            dsimp only
            obtain ⟨its1, hB, hBits⟩ := markTransitioningS_inv hM
            have hBlen : stB.items.length = st.items.length := by
              rw [hB]
              show its1.length = _
              rw [length_eq_of_mapSel hBits, hAlen]
            cases hR : itemRole stB (getSelectedIndex st.items)
                (fun it => { it with sel := false, prev := true }) with
            | error e =>
              exact absurd (itemRole_error hR)
                (getItem?_ne_none _ _ hSel (by omega))
            | ok stC => rfl
        · cases hM : markTransitioningS stA (getSelectedIndex st.items) with
          | error e =>
            exact absurd (markTransitioningS_error hM)
              (getItem?_ne_none _ _ hSel (by omega))
          | ok pr =>
            obtain ⟨stB, e1⟩ := pr
            dsimp only
            obtain ⟨its1, hB, hBits⟩ := markTransitioningS_inv hM
            have hBlen : stB.items.length = st.items.length := by
              rw [hB]
              show its1.length = _
              rw [length_eq_of_mapSel hBits, hAlen]
            cases hR : itemRole stB (getSelectedIndex st.items)
                (fun it => { it with sel := false, next := true }) with
            | error e =>
              exact absurd (itemRole_error hR)
                (getItem?_ne_none _ _ hSel (by omega))
            | ok stC => rfl

end Slideshow
namespace Slideshow

lemma length_canonItems (n idx : Nat) : (canonItems n idx).length = n := by
  simp [canonItems]

lemma getElem?_canonItems (n idx k : Nat) :
    (canonItems n idx)[k]? = if k < n then some (canonItem idx k) else none := by
  unfold canonItems
  rw [List.getElem?_map]
  by_cases h : k < n
  · rw [List.getElem?_range h, if_pos h]
    rfl
  · rw [if_neg h]
    have hnone : (List.range n)[k]? = none := by
      rw [List.getElem?_eq_none]
      simpa using Nat.le_of_not_lt h
    rw [hnone]
    rfl

lemma canonItems_clean (n idx : Nat) : ∀ it ∈ canonItems n idx, it.trans = false := by
  intro it h
  simp [canonItems] at h
  obtain ⟨k, hk, rfl⟩ := h
  rfl

lemma gsi_of_unique : ∀ (l : List Item) (idx : Nat), idx < l.length →
    (∀ k x, l[k]? = some x → (x.sel = true ↔ k = idx)) →
    getSelectedIndex l = idx := by
  intro l
  induction l with
  | nil => intro idx h; simp at h
  | cons y ys ih =>
    intro idx hlen hchar
    cases idx with
    | zero =>
      have hy : y.sel = true := (hchar 0 y (by simp)).mpr rfl
      rw [gsi_cons, if_pos hy]
      simp
    | succ m =>
      have hy : y.sel = false := by
        cases hys : y.sel
        · rfl
        · have h0 : (0 : Nat) = m + 1 := (hchar 0 y (by simp)).mp hys
          exact absurd h0 (by omega)
      have hm : getSelectedIndex ys = m := by
        apply ih
        · have := hlen
          simp [List.length_cons] at this
          omega
        · intro k x hk
          have := hchar (k + 1) x (by simpa using hk)
          simpa [Nat.succ_inj] using this
      rw [gsi_cons, if_neg (by simp [hy]), hm, if_neg (by omega)]
      push_cast
      ring

lemma gsi_canonItems (n idx : Nat) (h : idx < n) :
    getSelectedIndex (canonItems n idx) = idx := by
  apply gsi_of_unique
  · rw [length_canonItems]; exact h
  · intro k x hk
    rw [getElem?_canonItems] at hk
    split at hk
    · cases hk
      simp [canonItem]
    · cases hk

end Slideshow
namespace Slideshow
lemma canon_chain_fwd (n idx : Nat) (h1 : idx + 1 < n) :
    updAtI (updAtI (updAtI (updAtI (updAtI (updAtI (canonItems n idx)
      (idx : Int) (fun it => { it with trans := true }))
      ((idx : Int) + 1) (fun it => { it with trans := true }))
      (idx : Int) (fun it => { it with sel := false, prev := true }))
      ((idx : Int) + 1) (fun it => { it with next := false, sel := true }))
      (idx : Int) (fun it => { it with trans := false }))
      ((idx : Int) + 1) (fun it => { it with trans := false })
    = canonItems n (idx + 1) := by
  apply List.ext_getElem?
  intro k
  rw [getElem?_updAtI _ _ _ _ (by omega), getElem?_updAtI _ _ _ _ (by omega),
    getElem?_updAtI _ _ _ _ (by omega), getElem?_updAtI _ _ _ _ (by omega),
    getElem?_updAtI _ _ _ _ (by omega), getElem?_updAtI _ _ _ _ (by omega),
    getElem?_canonItems, getElem?_canonItems]
  by_cases hkn : k < n
  · by_cases hkA : k = idx
    · subst hkA
      simp [show ¬((k : Int) = (k : Int) + 1) by omega, hkn, canonItem, h1]
    · by_cases hkB : k = idx + 1
      · subst hkB
        simp [show ¬(((idx + 1 : Nat) : Int) = (idx : Int)) by omega,
          show (((idx + 1 : Nat) : Int) = (idx : Int) + 1) by omega,
          hkn, canonItem]
      · simp [show ¬((k : Int) = (idx : Int)) by omega,
          show ¬((k : Int) = (idx : Int) + 1) by omega, hkn, canonItem]
        constructor <;> omega
  · simp [hkn]
lemma canon_chain_fwd_upd (n idx : Nat) (h1 : idx + 1 < n) :
    updAt (updAt (updAt (updAt (updAt (updAt (canonItems n idx)
      idx (fun it => { it with trans := true }))
      (idx + 1) (fun it => { it with trans := true }))
      idx (fun it => { it with sel := false, prev := true }))
      (idx + 1) (fun it => { it with next := false, sel := true }))
      idx (fun it => { it with trans := false }))
      (idx + 1) (fun it => { it with trans := false })
    = canonItems n (idx + 1) := by
  have h := canon_chain_fwd n idx h1
  simpa [updAtI, show ¬((idx : Int) < 0) by omega,
    show ¬((idx : Int) + 1 < 0) by omega,
    show ((idx : Int)).toNat = idx by omega,
    show ((idx : Int) + 1).toNat = idx + 1 by omega] using h
end Slideshow
namespace Slideshow
lemma forwardC_canon (cfg : Config) (hcls : cfg.hasTransitioningClass = true)
    (n idx : Nat) (hn : idx + 1 < n) (ind : List Bool) (tv ai ar : Bool)
    (hsd : cfg.shouldDebounce = true) :
    ∃ log, transitionForwardC true ⟨cfg, canonItems n idx, some ind, false, tv, false, ai, ar⟩ =
      .ok (⟨cfg, canonItems n (idx + 1),
        some (updateIndicatorsList ((idx : Int) + 1) 0 ind),
        false, tv || cfg.shouldDebounce, false, ai, ar⟩, log) := by
  set st0 : SlideState := ⟨cfg, canonItems n idx, some ind, false, tv, false, ai, ar⟩ with h0def
  set stD : SlideState := ⟨cfg, canonItems n idx, some ind, true, true, true, ai, ar⟩ with hDdef
  have hdeb : debounce st0 = ⟨false, stD, (if tv = true then [Eff.cancelDebounceTimer] else []) ++ [Eff.armDebounceTimer backupDelayMs]⟩ := by
    unfold debounce
    rw [h0def, hDdef]
    simp [hsd]
  have hreset : resetAllTransitioning stD = stD :=
    resetAll_of_clean _ (by rw [hDdef]; exact canonItems_clean n idx)
  have hgsi : getSelectedIndex (canonItems n idx) = (idx : Int) :=
    gsi_canonItems n idx (by omega)
  have hnb : ¬((idx : Int) + 1 = (n : Int)) := by omega
  have hnn0 : ¬((idx : Int) < 0) := by omega
  have hnn1 : ¬((idx : Int) + 1 < 0) := by omega
  have ht0 : ((idx : Int)).toNat = idx := by omega
  have ht1 : ((idx : Int) + 1).toNat = idx + 1 := by omega
  have hne1 : ¬(idx + 1 = idx) := by omega
  have hne2 : ¬(idx = idx + 1) := by omega
  refine ⟨(if tv = true then [Eff.cancelDebounceTimer] else []) ++
    [Eff.armDebounceTimer backupDelayMs, Eff.markTrans (idx : Int),
     Eff.armBackupTimer (idx : Int) backupDelayMs, Eff.markTrans ((idx : Int) + 1),
     Eff.armBackupTimer ((idx : Int) + 1) backupDelayMs, Eff.toPrev (idx : Int),
     Eff.toSelected ((idx : Int) + 1)], ?heq⟩
  case heq =>
    unfold transitionForwardC transitionForwardSync forwardCore completeForward
    rw [hdeb]
    simp [hreset, hgsi, hnb, hnn0, hnn1, ht0, ht1, hne1, hne2, hcls, hsd,
      updateIndicators, markTransitioningS,
      itemRole, getItem?, clearTrans, trackerEndDeb, getElem?_canonItems,
      getElem?_updAt, length_updAt, length_canonItems, updAtI, hn,
      Nat.lt_of_succ_lt hn, canon_chain_fwd_upd n idx hn]
end Slideshow
namespace Slideshow
lemma canon_chain_bwd (n j : Nat) (hj : 1 ≤ j) (hn : j < n) :
    updAt (updAt (updAt (updAt (updAt (updAt (canonItems n j)
      j (fun it => { it with trans := true }))
      (j - 1) (fun it => { it with trans := true }))
      j (fun it => { it with sel := false, next := true }))
      (j - 1) (fun it => { it with prev := false, sel := true }))
      j (fun it => { it with trans := false }))
      (j - 1) (fun it => { it with trans := false })
    = canonItems n (j - 1) := by
  apply List.ext_getElem?
  intro k
  rw [getElem?_updAt, getElem?_updAt, getElem?_updAt, getElem?_updAt,
    getElem?_updAt, getElem?_updAt, getElem?_canonItems, getElem?_canonItems]
  by_cases hkn : k < n
  · by_cases hkA : k = j
    · subst hkA
      simp [show ¬(k = k - 1) by omega, hkn, canonItem,
        show ¬(k < k - 1) by omega, show k - 1 < k by omega]
    · by_cases hkB : k = j - 1
      · subst hkB
        simp [show ¬(j - 1 = j) by omega, hkn, canonItem,
          show ¬(j < j - 1) by omega, show j - 1 < j by omega]
      · simp [hkA, hkB, hkn, canonItem]
        constructor <;> omega
  · simp [hkn]
end Slideshow
namespace Slideshow
lemma backwardC_canon (cfg : Config) (hcls : cfg.hasTransitioningClass = true)
    (n j : Nat) (hj : 1 ≤ j) (hn : j < n) (ind : List Bool) (tv ai ar : Bool)
    (hsd : cfg.shouldDebounce = true) :
    ∃ log, transitionBackwardC true ⟨cfg, canonItems n j, some ind, false, tv, false, ai, ar⟩ =
      .ok (⟨cfg, canonItems n (j - 1),
        some (updateIndicatorsList ((j : Int) - 1) 0 ind),
        false, true, false, ai, ar⟩, log) := by
  set st0 : SlideState := ⟨cfg, canonItems n j, some ind, false, tv, false, ai, ar⟩ with h0def
  set stD : SlideState := ⟨cfg, canonItems n j, some ind, true, true, true, ai, ar⟩ with hDdef
  have hdeb : debounce st0 = ⟨false, stD, (if tv = true then [Eff.cancelDebounceTimer] else []) ++ [Eff.armDebounceTimer backupDelayMs]⟩ := by
    unfold debounce
    rw [h0def, hDdef]
    simp [hsd]
  have hreset : resetAllTransitioning stD = stD :=
    resetAll_of_clean _ (by rw [hDdef]; exact canonItems_clean n j)
  have hgsi : getSelectedIndex (canonItems n j) = (j : Int) :=
    gsi_canonItems n j hn
  have hnb : ¬((j : Int) - 1 < 0) := by omega
  have hnn0 : ¬((j : Int) < 0) := by omega
  have ht0 : ((j : Int)).toNat = j := by omega
  have ht1 : ((j : Int) - 1).toNat = j - 1 := by omega
  have hne1 : ¬(j - 1 = j) := by omega
  have hne2 : ¬(j = j - 1) := by omega
  have hlt1 : j - 1 < n := by omega
  refine ⟨(if tv = true then [Eff.cancelDebounceTimer] else []) ++
    [Eff.armDebounceTimer backupDelayMs, Eff.markTrans (j : Int),
     Eff.armBackupTimer (j : Int) backupDelayMs, Eff.markTrans ((j : Int) - 1),
     Eff.armBackupTimer ((j : Int) - 1) backupDelayMs, Eff.toNext (j : Int),
     Eff.toSelected ((j : Int) - 1)], ?heq⟩
  case heq =>
    unfold transitionBackwardC transitionBackwardSync backwardCore completeBackward
    rw [hdeb]
    simp [hreset, hgsi, hnb, hnn0, ht0, ht1, hne1, hne2, hcls, hsd,
      updateIndicators, markTransitioningS, itemRole, getItem?, clearTrans,
      trackerEndDeb, getElem?_canonItems, getElem?_updAt, length_updAt,
      length_canonItems, updAtI, hn, hlt1, canon_chain_bwd n j hj hn]
end Slideshow
namespace Slideshow

/-! ### Claim theorems -/

lemma Step_inv {st st' : SlideState} (h : Step st st')
    (hcls : st.cfg.hasTransitioningClass = true)
    (hc : countSel st.items = 1) :
    st'.cfg = st.cfg ∧ countSel st'.items = 1 := by
  cases h with
  | fwd a st st' log hop => exact transitionForwardC_inv hop hc
  | bwd a st st' log hop => exact transitionBackwardC_inv hop hc
  | jump t st st' log hop => exact transitionToC_inv hop hcls hc

/-- C1 (counterexample): in the run where the external completion signal
never fires and only the 3000ms backup timeout fires, the claim's asserted
outcome — transitioning tag removed AND continuation invoked — is false:
the backup-timeout body (source lines 578-591) invokes the continuation
but never removes the item's transitioning tag. -/
theorem claim_c1_counterexample :
    ¬ ((tkRun mkTracker [TkEv.timeout]).itemTrans = false ∧
        (tkRun mkTracker [TkEv.timeout]).fired = 1) := by
  decide

/-- C1 (amended): for every tracked item with a configured transitioning
class, over any sequence of completion-signal and backup-timeout events:
the continuation fires at most once, and exactly once as soon as any event
occurs (the backup timer is armed at `backupDelayMs` = 3000ms, so with no
signal the continuation still fires within 3000ms); it never fires before
the tag addition; but in a signal-free run the transitioning tag is NOT
removed — it stays set (it is only cleared by a later operation's
`resetAllTransitioning`). -/
theorem claim_c1_amended (tr : List TkEv) :
    (tkRun mkTracker tr).fired ≤ 1 ∧
    (tr ≠ [] → (tkRun mkTracker tr).fired = 1) ∧
    (TkEv.signal ∉ tr → (tkRun mkTracker tr).itemTrans = true) ∧
    mkTracker.fired = 0 ∧ backupDelayMs = 3000 := by
  refine ⟨?_, ?_, ?_, rfl, rfl⟩
  · exact tkReach_fired_le (tkRun_reach (Or.inl rfl) tr)
  · intro hne
    cases tr with
    | nil => exact absurd rfl hne
    | cons e es =>
      show (tkRun (tkStep mkTracker e) es).fired = 1
      refine tkRun_fired_absorb (tkStep_reach (Or.inl rfl) e) ?_ es
      cases e <;> decide
  · intro hs
    exact tkRun_nosignal (Or.inl rfl) tr hs

/-- C1 (witness): the signal-free timeout run at the concrete trace
`[timeout]`: continuation fired exactly once, tag still set. -/
theorem claim_c1_witness :
    (tkRun mkTracker [TkEv.timeout]).fired = 1 ∧
    (tkRun mkTracker [TkEv.timeout]).itemTrans = true :=
  ⟨(claim_c1_amended [TkEv.timeout]).2.1 (by decide),
    (claim_c1_amended [TkEv.timeout]).2.2.1 (by decide)⟩

/-- C2 (counterexample): with the transitioning class unset, a single
completed `transitionTo` from a settled 2-item carousel with exactly one
selected item returns without error and reaches a settled state in which
NO item bears the selected role: the role flip to selected rides on the
Transition Tracker continuation, which never runs in that configuration. -/
theorem claim_c2_counterexample :
    countSel noClassSt.items = 1 ∧ settled noClassSt = true ∧
    (stOf (transitionToC 1 noClassSt)).map
        (fun s => (countSel s.items, settled s)) = some (0, true) := by
  decide

/-- C2 (amended): on a carousel whose transitioning class is configured,
if the initial markup has exactly one item bearing the selected role, then
after any sequence of completed `transitionForward`, `transitionBackward`
and `transitionTo` operations, exactly one item bears the selected role
(and the configuration is unchanged). -/
theorem claim_c2_amended (st0 st : SlideState)
    (hcls : st0.cfg.hasTransitioningClass = true)
    (h1 : countSel st0.items = 1) (h : Reach st0 st) :
    countSel st.items = 1 ∧ st.cfg.hasTransitioningClass = true := by
  induction h with
  | refl => exact ⟨h1, hcls⟩
  | tail hab hbc ih =>
    obtain ⟨ihc, ihcls⟩ := ih
    obtain ⟨hcfg, hcnt⟩ := Step_inv hbc ihcls ihc
    exact ⟨hcnt, by rw [hcfg]; exact ihcls⟩

/-- C2 (witness): one completed forward step on a concrete 3-item carousel
with the transitioning class configured keeps exactly one selected item. -/
theorem claim_c2_witness : countSel c2WitNext.items = 1 :=
  (claim_c2_amended c2WitSt c2WitNext (by decide) (by decide)
    (Relation.ReflTransGen.single
      (Step.fwd true c2WitSt c2WitNext c2WitLog (by rfl)))).1

/-- C3: the Debounce Guard.  (a) With debouncing enabled and a transition
in flight, a second synchronous `transitionForward` call is rejected: it
returns with the state unchanged, an empty effect log, and nothing
pending.  (b) When a request is admitted the guard sets the transitioning
flag, arms the fixed 3000ms safety timer, and that timer's body
force-clears the flag.  (c) With debouncing disabled every request is
admitted with no state change. -/
theorem claim_c3 (st : SlideState) :
    (st.cfg.shouldDebounce = true → st.transitioning = true →
      ∀ a, transitionForwardSync a st = .ok (st, [], none)) ∧
    (st.cfg.shouldDebounce = true → st.transitioning = false →
      (debounce st).blocked = false ∧
      (debounce st).state = { st with transitioning := true, timeoutVarSet := true, debounceTimerPending := true } ∧
      Eff.armDebounceTimer 3000 ∈ (debounce st).effs) ∧
    (st.cfg.shouldDebounce = false → debounce st = ⟨false, st, []⟩) ∧
    (∀ s, (debounceTimeoutBody s).transitioning = false) := by
  refine ⟨?_, ?_, ?_, fun s => rfl⟩
  · intro h1 h2 a
    have hd : debounce st = ⟨true, st, []⟩ := by
      unfold debounce
      rw [if_pos h1, if_pos h2]
    unfold transitionForwardSync
    rw [hd]
    rfl
  · intro h1 h2
    have hd : debounce st = ⟨false, { st with transitioning := true, timeoutVarSet := true, debounceTimerPending := true }, (if st.timeoutVarSet = true then [Eff.cancelDebounceTimer] else []) ++ [Eff.armDebounceTimer backupDelayMs]⟩ := by
      unfold debounce
      rw [if_pos h1, if_neg (by simp [h2])]
    refine ⟨by rw [hd], by rw [hd], ?_⟩
    rw [hd]
    show Eff.armDebounceTimer 3000 ∈ _ ++ [Eff.armDebounceTimer backupDelayMs]
    simp [backupDelayMs]
  · intro h1
    unfold debounce
    rw [if_neg (by simp [h1])]

/-- C3 (witness): on a concrete mid-transition debouncing carousel the
second synchronous forward call is rejected with nothing mutated, and the
safety-timer body clears the flag. -/
theorem claim_c3_witness :
    transitionForwardSync true c3St = .ok (c3St, [], none) ∧
    (debounceTimeoutBody c3St).transitioning = false :=
by
  obtain ⟨ha, hb, hc, hd⟩ := claim_c3 c3St
  exact ⟨ha rfl rfl true, hd c3St⟩

/-- C4: with looping disabled, a `transitionForward` call at the last
index (from a settled state) aborts before any visible work: roles,
indicators, and the auto-advance timers are untouched, the debounce flag
is released immediately (its safety timer is cancelled, leaving no timer
pending), and no diagnostic is emitted.  Only the internal
`transitioningTimeout` variable may become non-null. -/
theorem claim_c4 (st : SlideState)
    (hloop : st.cfg.loop = false)
    (hlast : getSelectedIndex st.items + 1 = (st.items.length : Int))
    (htr : st.transitioning = false)
    (hpend : st.debounceTimerPending = false)
    (htags : ∀ it ∈ st.items, it.trans = false) :
    ∃ st' log, transitionForwardC true st = .ok (st', log) ∧
      st'.items = st.items ∧ st'.indicators = st.indicators ∧
      st'.transitioning = false ∧ st'.debounceTimerPending = false ∧
      st'.autoIntervalPending = st.autoIntervalPending ∧
      st'.autoResumePending = st.autoResumePending ∧ st'.cfg = st.cfg ∧
      st'.timeoutVarSet = (st.timeoutVarSet || st.cfg.shouldDebounce) ∧
      (∀ m, Eff.diag m ∉ log) := by
  by_cases hsd : st.cfg.shouldDebounce = true
  · have hd : debounce st = ⟨false, { st with transitioning := true, timeoutVarSet := true, debounceTimerPending := true }, (if st.timeoutVarSet = true then [Eff.cancelDebounceTimer] else []) ++ [Eff.armDebounceTimer backupDelayMs]⟩ := by
      unfold debounce
      rw [if_pos hsd, if_neg (by simp [htr])]
    have hreset : resetAllTransitioning { st with transitioning := true, timeoutVarSet := true, debounceTimerPending := true } = { st with transitioning := true, timeoutVarSet := true, debounceTimerPending := true } :=
      resetAll_of_clean _ htags
    have heq : transitionForwardC true st = .ok ({ st with transitioning := false, timeoutVarSet := true, debounceTimerPending := false }, (if st.timeoutVarSet = true then [Eff.cancelDebounceTimer] else []) ++ [Eff.armDebounceTimer backupDelayMs, Eff.cancelDebounceTimer]) := by
      unfold transitionForwardC transitionForwardSync endDebounce
      rw [hd]
      simp [hreset, hlast, hloop, hsd]
    refine ⟨_, _, heq, rfl, rfl, rfl, rfl, rfl, rfl, rfl, ?_, ?_⟩
    · show true = (st.timeoutVarSet || st.cfg.shouldDebounce)
      rw [hsd, Bool.or_true]
    · intro m hm
      cases htv : st.timeoutVarSet <;> simp [htv] at hm
  · have hsd' : st.cfg.shouldDebounce = false := by
      cases h : st.cfg.shouldDebounce
      · rfl
      · exact absurd h hsd
    have hd : debounce st = ⟨false, st, []⟩ := by
      unfold debounce
      rw [if_neg (by simp [hsd'])]
    have hreset : resetAllTransitioning st = st := resetAll_of_clean st htags
    have heq : transitionForwardC true st = .ok (st, []) := by
      unfold transitionForwardC transitionForwardSync endDebounce
      rw [hd]
      simp [hreset, hlast, hloop, hsd']
    refine ⟨_, _, heq, rfl, rfl, htr, hpend, rfl, rfl, rfl, ?_, ?_⟩
    · show st.timeoutVarSet = (st.timeoutVarSet || st.cfg.shouldDebounce)
      rw [hsd', Bool.or_false]
    · intro m hm
      simp at hm

/-- C4 (witness): a concrete 3-item non-looping carousel at its last index. -/
theorem claim_c4_witness :
    ∃ st' log, transitionForwardC true c4WitSt = .ok (st', log) ∧
      st'.items = c4WitSt.items ∧ st'.indicators = c4WitSt.indicators ∧
      st'.transitioning = false ∧ st'.debounceTimerPending = false ∧
      st'.autoIntervalPending = c4WitSt.autoIntervalPending ∧
      st'.autoResumePending = c4WitSt.autoResumePending ∧ st'.cfg = c4WitSt.cfg ∧
      st'.timeoutVarSet = (c4WitSt.timeoutVarSet || c4WitSt.cfg.shouldDebounce) ∧
      (∀ m, Eff.diag m ∉ log) :=
  claim_c4 c4WitSt (by decide) (by decide) (by decide) (by decide) (by decide)

/-- C5: with looping enabled on the 4-item carousel settled at index 3,
a completed `transitionForward` selects index 0 and leaves items 1, 2, 3
bearing role next (wrap normalization); and the loop-repair applied by the
secondary backup timer to the synchronous state (the path taken when the
completion signal never fires) produces the same role assignment. -/
theorem claim_c5 :
    (stOf (transitionForwardC true c5St)).map
        (fun s => (s.items.map (fun it => (it.prev, it.sel, it.next)),
          getSelectedIndex s.items)) =
      some ([(false, true, false), (false, false, true), (false, false, true),
        (false, false, true)], 0) ∧
    (fwdSyncStOf true c5St).map (fun q =>
        (reclauclatePositions q.1 0 false).items.map
          (fun it => (it.prev, it.sel, it.next))) =
      some [(false, true, false), (false, false, true), (false, false, true),
        (false, false, true)] := by
  decide

/-- C6: `transitionTo 4` from the settled index 1 of a 6-item non-looping
carousel runs a sequential chain — the outgoing item 1 and the
intermediate items 2 and 3 are each tracked and turned previous in order,
each step gated on the previous tracker's completion, the chain
terminating when the step counter reaches the distance — and only then is
index 4 tracked and flipped from next to selected; the final state is the
canonical settled state at index 4. -/
theorem claim_c6 :
    (stOf (transitionToC 4 c6St)).map
        (fun s => (s.items, getSelectedIndex s.items)) =
      some (canonItems 6 4, 4) ∧
    logOf (transitionToC 4 c6St) =
      some [Eff.armDebounceTimer 3000,
        Eff.markTrans 1, Eff.armBackupTimer 1 3000, Eff.toPrev 1,
        Eff.markTrans 2, Eff.armBackupTimer 2 3000, Eff.toPrev 2,
        Eff.markTrans 3, Eff.armBackupTimer 3 3000, Eff.toPrev 3,
        Eff.markTrans 4, Eff.armBackupTimer 4 3000, Eff.toSelected 4] := by
  decide

/-- C8: calling `transitionTo k` when the selected index already equals
`k` is a no-op: the equality check precedes the debounce, so the call
returns with the state unchanged, no effects, no pending work, and its
completed form returns the unchanged state with an empty log. -/
theorem claim_c8 (k : Int) (st : SlideState)
    (h : getSelectedIndex st.items = k) :
    transitionToSync k st = .ok (st, [], none) ∧
    transitionToC k st = .ok (st, []) := by
  have h1 : transitionToSync k st = .ok (st, [], none) := by
    unfold transitionToSync
    dsimp only
    rw [if_pos h]
  refine ⟨h1, ?_⟩
  unfold transitionToC
  rw [h1]

/-- C8 (witness): `transitionTo 1` on the concrete 6-item carousel settled
at index 1 is a no-op. -/
theorem claim_c8_witness :
    transitionToSync 1 c6St = .ok (c6St, [], none) ∧
    transitionToC 1 c6St = .ok (c6St, []) :=
  claim_c8 1 c6St (by decide)

/-- C9 (counterexample): two of the inputs the claim explicitly includes
do propagate a thrown failure to the caller: with a `null` indicator array,
`transitionForward` throws inside `updateIndicators` (source line 85
dereferences `this.indicators` without a null guard); with markup that has
no selected item, `getSelectedIndex` returns -1 and the call throws on the
undefined item `items[-1]`. -/
theorem claim_c9_counterexample :
    transitionForwardSync true nullIndSt =
      .error "TypeError: cannot read length of null" ∧
    isOk (transitionForwardSync true noSelSt) = false :=
  ⟨rfl, by decide⟩

/-- C9 (amended): provided the indicator array is non-null and the markup
has an item bearing the selected role, no synchronous public operation
(`transitionForward`, `transitionBackward`, `transitionTo` at any target
index, with any `auto` flag) raises a propagating failure; and an
indicator-count mismatch at construction is reported by a diagnostic only,
the constructor completing normally. -/
theorem claim_c9_amended (st : SlideState)
    (hI : st.indicators ≠ none) (hSel : 0 ≤ getSelectedIndex st.items) :
    (∀ a, isOk (transitionForwardSync a st) = true) ∧
    (∀ a, isOk (transitionBackwardSync a st) = true) ∧
    (∀ t, isOkTo (transitionToSync t st) = true) ∧
    (∀ cfg its l, its.length ≠ l.length →
      (mkSlideshow cfg its (some l)).2 =
        [Eff.diag "Invalid number of indicators! Number of indicators must match number of items.",
          Eff.startAutoEff]) := by
  refine ⟨fun a => transitionForwardSync_isOk a st hI hSel,
    fun a => transitionBackwardSync_isOk a st hI hSel,
    fun t => transitionToSync_isOk t st hI hSel, ?_⟩
  intro cfg its l h
  simp [mkSlideshow, h]

/-- C9 (witness): the amended no-throw guarantee at the concrete 6-item
carousel. -/
theorem claim_c9_witness :
    isOk (transitionForwardSync true c6St) = true ∧
    isOk (transitionBackwardSync true c6St) = true ∧
    isOkTo (transitionToSync 4 c6St) = true := by
  obtain ⟨hf, hb, ht, _⟩ := claim_c9_amended c6St (by decide) (by decide)
  exact ⟨hf true, hb true, ht 4⟩

/-- C10: when the transitioning class identifier is unset,
`markTransitioning` is a no-op for every item — it mutates nothing, arms
no timers, and registers no continuation — and consequently the
continuation-driven logic is disabled: the entire multi-step chain of
`transitionTo` never runs (only the debounce safety timer can still act),
and `transitionBackward`'s loop repair is skipped even on a wrap. -/
theorem claim_c10 (st : SlideState) (i : Int)
    (hcls : st.cfg.hasTransitioningClass = false) :
    markTransitioningS st i = .ok (st, []) ∧
    (∀ p : ToPend, completeTo st p =
      .ok ((if st.debounceTimerPending = true then debounceTimeoutBody st
        else st), [])) ∧
    (∀ p : MovePend, completeBackward st p =
      (if st.debounceTimerPending = true then debounceTimeoutBody st
        else st)) := by
  refine ⟨markTransitioningS_noclass st i hcls, ?_, ?_⟩
  · intro p
    unfold completeTo
    rw [if_neg (by simp [hcls])]
  · intro p
    unfold completeBackward
    rw [if_neg (by simp [hcls])]

/-- C10 (witness): on the concrete no-transitioning-class carousel,
`markTransitioning` at index 0 changes nothing and logs nothing. -/
theorem claim_c10_witness :
    markTransitioningS noClassSt 0 = .ok (noClassSt, []) :=
  (claim_c10 noClassSt 0 (by decide)).1

end Slideshow

namespace Slideshow
/-- **C7** (test): from a settled canonical state at a non-boundary index,
`transitionForward` run to completion followed by `transitionBackward` run
to completion restores every item's role tags and the selected index. -/
theorem claim_c7 (cfg : Config) (hcls : cfg.hasTransitioningClass = true)
    (hsd : cfg.shouldDebounce = true) (n idx : Nat) (hn : idx + 1 < n)
    (ind : List Bool) (tv ai ar : Bool) :
    ∃ st1 log1 st2 log2,
      transitionForwardC true ⟨cfg, canonItems n idx, some ind, false, tv, false, ai, ar⟩
        = .ok (st1, log1) ∧
      transitionBackwardC true st1 = .ok (st2, log2) ∧
      st1.items = canonItems n (idx + 1) ∧
      getSelectedIndex st1.items = (idx : Int) + 1 ∧
      st2.items = canonItems n idx ∧
      getSelectedIndex st2.items = (idx : Int) := by
  obtain ⟨log1, h1⟩ := forwardC_canon cfg hcls n idx hn ind tv ai ar hsd
  obtain ⟨log2, h2⟩ := backwardC_canon cfg hcls n (idx + 1) (by omega) hn
    (updateIndicatorsList ((idx : Int) + 1) 0 ind) (tv || cfg.shouldDebounce) ai ar hsd
  refine ⟨_, log1, _, log2, h1, h2, rfl, ?_, ?_, ?_⟩
  · exact gsi_canonItems n (idx + 1) hn
  · simp
  · simp [gsi_canonItems n idx (by omega)]
end Slideshow
namespace Slideshow
/-- Closed instance of C7: the round trip on a 3-item carousel at index 0. -/
theorem claim_c7_witness :
    ∃ st1 log1 st2 log2,
      transitionForwardC true ⟨⟨false, true, false, true, false⟩, canonItems 3 0,
        some [true, false, false], false, false, false, false, false⟩
        = .ok (st1, log1) ∧
      transitionBackwardC true st1 = .ok (st2, log2) ∧
      st1.items = canonItems 3 1 ∧
      getSelectedIndex st1.items = (0 : Int) + 1 ∧
      st2.items = canonItems 3 0 ∧
      getSelectedIndex st2.items = (0 : Int) :=
  claim_c7 ⟨false, true, false, true, false⟩ rfl rfl 3 0 (by omega)
    [true, false, false] false false false
end Slideshow
